import Mathlib

/-!
# Orbit-style isometric camera pawn (`AIsoCameraPawn`)

A shallow embedding of `IsoCameraPawn.cpp` / `IsoCameraPawn.h`.

Numbers: every `float` of the source is an element of an arbitrary linearly
ordered field `K` (exact arithmetic; `ℚ` for evaluation, `ℝ` for geometry).
Rounding, infinities and NaN are not modelled.

State: the pawn is a flat record holding every property of the header that the
`.cpp` reads or writes, the world location of the pawn's root, the camera
component (world transform and field of view) and the follow target as the
pawn observes it (pivot location and bounds).

Engine primitives used by the source (`FMath`, `FRotator`, `FRotationMatrix`,
`AddActorWorldOffset`) are not part of the repository; they are written out
below with the meaning the engine and the specification give them.  The
trigonometric and inverse-square-root primitives cannot be computed in a field,
so they are a parameter (`FPlatformMath`).
-/

namespace IsoCamera

/-! ## Vectors and rotators -/

/-- A world-space vector (`FVector`). -/
@[ext] structure FVector (K : Type) where
  X : K
  Y : K
  Z : K
deriving DecidableEq, Repr

/-- Euler angles in degrees (`FRotator(Pitch, Yaw, Roll)`). -/
@[ext] structure FRotator (K : Type) where
  Pitch : K
  Yaw : K
  Roll : K
deriving DecidableEq, Repr

section Field

variable {K : Type} [LinearOrderedField K]

namespace FVector

/-- Componentwise sum, `A + B`. -/
def add (a b : FVector K) : FVector K := ⟨a.X + b.X, a.Y + b.Y, a.Z + b.Z⟩

/-- Componentwise difference, `A - B`. -/
def sub (a b : FVector K) : FVector K := ⟨a.X - b.X, a.Y - b.Y, a.Z - b.Z⟩

/-- Vector times scalar, `V * Scale`. -/
def scale (v : FVector K) (s : K) : FVector K := ⟨v.X * s, v.Y * s, v.Z * s⟩

/-- The zero vector, `FVector::ZeroVector`. -/
def ZeroVector : FVector K := ⟨0, 0, 0⟩

/-- Squared length, `SizeSquared()`. -/
def SizeSquared (v : FVector K) : K := v.X * v.X + v.Y * v.Y + v.Z * v.Z

/-- Dot product, `A | B`. -/
def dot (a b : FVector K) : K := a.X * b.X + a.Y * b.Y + a.Z * b.Z

instance : Add (FVector K) := ⟨add⟩
instance : Sub (FVector K) := ⟨sub⟩
instance : HMul (FVector K) K (FVector K) := ⟨scale⟩

end FVector

/-! ## Engine math (`FMath`) -/

/-- Engine constant `UE_SMALL_NUMBER` (1.e-8f), the default tolerance of
`FMath::IsNearlyZero`. -/
def UE_SMALL_NUMBER : K := 1 / 100000000

/-- Engine constant `UE_KINDA_SMALL_NUMBER` (1.e-4f), written
`KINDA_SMALL_NUMBER` in the source; the `ε` of the specification's
height-scaling law. -/
def KINDA_SMALL_NUMBER : K := 1 / 10000

namespace FMath

/-- Engine `FMath::Abs`: `(A < 0) ? -A : A`. -/
def Abs (a : K) : K := if a < 0 then -a else a

/-- Engine `FMath::Max`: `(B < A) ? A : B`. -/
def Max (a b : K) : K := if b < a then a else b

/-- Engine `FMath::Min`: `(A < B) ? A : B`. -/
def Min (a b : K) : K := if a < b then a else b

/-- Engine `FMath::Clamp(X, MinValue, MaxValue)`:
`Max(Min(X, MaxValue), MinValue)`. -/
def Clamp (x mn mx : K) : K := Max (Min x mx) mn

/-- Engine `FMath::Lerp(A, B, Alpha)`: `A + Alpha * (B - A)`. -/
def Lerp (a b alpha : K) : K := a + alpha * (b - a)

/-- Engine `FMath::IsNearlyZero(Value)`: `Abs(Value) <= UE_SMALL_NUMBER`. -/
def IsNearlyZero (v : K) : Bool := decide (Abs v ≤ UE_SMALL_NUMBER)

/-- Integer part of a quotient, rounded toward zero (C `trunc`). -/
def truncToInt [FloorRing K] (q : K) : ℤ := if 0 ≤ q then ⌊q⌋ else ⌈q⌉

/-- Engine `FMath::Fmod(X, Y)`: `0` when `Abs(Y) <= UE_SMALL_NUMBER`, otherwise
the C `fmodf`, `X - trunc(X / Y) * Y` (the result has the sign of `X`). -/
def Fmod [FloorRing K] (x y : K) : K :=
  if Abs y ≤ UE_SMALL_NUMBER then 0 else x - (truncToInt (x / y) : K) * y

end FMath

/-- The engine primitives that have no closed form in a field: sine and cosine
of an angle given in degrees (`FMath::SinCos` after `DegreesToRadians`) and the
inverse square root used by `GetSafeNormal`. -/
structure FPlatformMath (K : Type) where
  SinDeg : K → K
  CosDeg : K → K
  InvSqrt : K → K

/-- The facts about the engine primitives the geometric results rest on:
`sin² + cos² = 1`, and the values at angle `0`. -/
structure FPlatformMath.Lawful (M : FPlatformMath K) : Prop where
  sq_add_sq : ∀ d, M.CosDeg d * M.CosDeg d + M.SinDeg d * M.SinDeg d = 1
  sin_zero : M.SinDeg 0 = 0
  cos_zero : M.CosDeg 0 = 1

/-- Modelled from the spec: `FRotator::Vector()` is engine code, absent from
the repository.  It is the forward unit vector of the rotation,
`(cos p · cos y, cos p · sin y, sin p)` for pitch `p` and yaw `y` in degrees. -/
def FRotator.Vector (M : FPlatformMath K) (r : FRotator K) : FVector K :=
  let CP := M.CosDeg r.Pitch
  let SP := M.SinDeg r.Pitch
  let CY := M.CosDeg r.Yaw
  let SY := M.SinDeg r.Yaw
  ⟨CP * CY, CP * SY, SP⟩

/-- Engine `FVector::GetSafeNormal()`: the vector itself when its squared
length is exactly `1`, zero when the squared length is below
`UE_SMALL_NUMBER`, otherwise the vector times `InvSqrt` of the squared
length. -/
def FVector.GetSafeNormal (M : FPlatformMath K) (v : FVector K) : FVector K :=
  let SquareSum := v.SizeSquared
  if SquareSum = 1 then v
  else if SquareSum < UE_SMALL_NUMBER then FVector.ZeroVector
  else v * M.InvSqrt SquareSum

/-- Engine `FRotationMatrix(Rot).GetUnitAxis(EAxis::Y)`: the second row of the
rotation matrix, `(SR·SP·CY − CR·SY, SR·SP·SY + CR·CY, −SR·CP)`, normalised
with `GetSafeNormal`. -/
def FRotationMatrix.GetUnitAxisY (M : FPlatformMath K) (r : FRotator K) : FVector K :=
  let SP := M.SinDeg r.Pitch
  let CP := M.CosDeg r.Pitch
  let SY := M.SinDeg r.Yaw
  let CY := M.CosDeg r.Yaw
  let SR := M.SinDeg r.Roll
  let CR := M.CosDeg r.Roll
  FVector.GetSafeNormal M ⟨SR * SP * CY - CR * SY, SR * SP * SY + CR * CY, -SR * CP⟩

/-! ## State -/

/-- What the pawn reads from the actor it follows: `GetActorLocation()` and
the `Origin` and `Extents` returned by `GetActorBounds`. -/
structure AActor (K : Type) where
  ActorLocation : FVector K
  BoundsOrigin : FVector K
  BoundsExtents : FVector K
deriving DecidableEq, Repr

/-- The camera component as the pawn writes it: world location, world rotation
and field of view. -/
structure UCameraComponent (K : Type) where
  WorldLocation : FVector K
  WorldRotation : FRotator K
  FieldOfView : K
deriving DecidableEq, Repr

/-- The pawn: the properties declared in `IsoCameraPawn.h`, the world location
of its root (`GetActorLocation()`), and its camera component (`none` when the
`Camera` pointer is null). -/
structure AIsoCameraPawn (K : Type) where
  ActorLocation : FVector K
  Camera : Option (UCameraComponent K)
  FollowTarget : Option (AActor K)
  FollowOffset : FVector K
  bAutoCenterFollowTarget : Bool
  FollowAimHeightAlpha : K
  YawDeg : K
  PitchDeg : K
  FocusOffset : FVector K
  OrbitRadius : K
  OrbitRadiusMin : K
  OrbitRadiusMax : K
  Height : K
  bScaleHeightWithZoom : Bool
  HeightMin : K
  HeightMax : K
  ZoomSpeed : K
  PanSpeed : K
  RotateSpeedDegPerSec : K
  FixedFOV : K
  bUseDebugCamera : Bool
  DebugLocation : FVector K
  DebugPitch : K
  DebugYaw : K
  DebugFOV : K
deriving DecidableEq, Repr

namespace AIsoCameraPawn

/-- The defaults written in `IsoCameraPawn.h`, for a pawn placed at `loc`
whose constructor has created the camera at the root with `FixedFOV`. -/
def defaults (loc : FVector K) : AIsoCameraPawn K where
  ActorLocation := loc
  Camera := some ⟨loc, ⟨0, 0, 0⟩, 60⟩
  FollowTarget := none
  FollowOffset := FVector.ZeroVector
  bAutoCenterFollowTarget := true
  FollowAimHeightAlpha := 35 / 100
  YawDeg := 45
  PitchDeg := -35
  FocusOffset := FVector.ZeroVector
  OrbitRadius := 3000
  OrbitRadiusMin := 800
  OrbitRadiusMax := 8000
  Height := 1400
  bScaleHeightWithZoom := true
  HeightMin := 600
  HeightMax := 2600
  ZoomSpeed := 800
  PanSpeed := 2000
  RotateSpeedDegPerSec := 90
  FixedFOV := 60
  bUseDebugCamera := false
  DebugLocation := ⟨-800, 0, 800⟩
  DebugPitch := -45
  DebugYaw := 45
  DebugFOV := 60

/-- Engine `AActor::AddActorWorldOffset(Delta, bSweep)`: translates the root by
`Delta`; the attached camera keeps its relative transform, so its world
location moves by the same `Delta`.  The root is a plain scene component
without collision, so the sweep never blocks. -/
def AddActorWorldOffset (s : AIsoCameraPawn K) (Delta : FVector K) : AIsoCameraPawn K :=
  { s with
    ActorLocation := s.ActorLocation + Delta
    Camera := s.Camera.map fun c => { c with WorldLocation := c.WorldLocation + Delta } }

/-! ## Operations of `IsoCameraPawn.cpp` -/

/-- Source `AIsoCameraPawn::GetFocusPoint` (lines 91-115). -/
def GetFocusPoint (s : AIsoCameraPawn K) : FVector K :=
  match s.FollowTarget with
  | some t =>
    let Extents := t.BoundsExtents
    let Pivot := t.ActorLocation
    if s.bAutoCenterFollowTarget then
      let FullHeight := 2 * Extents.Z
      let Aim : FVector K := { Pivot with Z := Pivot.Z + FullHeight * s.FollowAimHeightAlpha }
      Aim + s.FollowOffset
    else
      Pivot + s.FollowOffset
  | none => s.ActorLocation + s.FollowOffset

/-- Source `AIsoCameraPawn::ApplyHeightScalingFromRadius` (lines 117-128). -/
def ApplyHeightScalingFromRadius (s : AIsoCameraPawn K) : AIsoCameraPawn K :=
  if !s.bScaleHeightWithZoom then s
  else
    let Denom := FMath.Max KINDA_SMALL_NUMBER (s.OrbitRadiusMax - s.OrbitRadiusMin)
    let Alpha := (s.OrbitRadius - s.OrbitRadiusMin) / Denom
    { s with Height := FMath.Lerp s.HeightMin s.HeightMax (FMath.Clamp Alpha 0 1) }

/-- Source `AIsoCameraPawn::ZoomCamera` (lines 130-147), legacy axis handler. -/
def ZoomCamera (AxisValue : K) (s : AIsoCameraPawn K) : AIsoCameraPawn K :=
  if FMath.IsNearlyZero AxisValue then s
  else
    ApplyHeightScalingFromRadius
      { s with OrbitRadius :=
          FMath.Clamp (s.OrbitRadius - AxisValue * s.ZoomSpeed) s.OrbitRadiusMin s.OrbitRadiusMax }

/-- Source `AIsoCameraPawn::PanForward` (lines 149-161), legacy axis handler;
`DeltaSeconds` is `GetWorld()->GetDeltaSeconds()`. -/
def PanForward (M : FPlatformMath K) (DeltaSeconds AxisValue : K) (s : AIsoCameraPawn K) :
    AIsoCameraPawn K :=
  if FMath.IsNearlyZero AxisValue then s
  else
    let YawOnly : FRotator K := ⟨0, s.YawDeg, 0⟩
    let Forward := YawOnly.Vector M
    s.AddActorWorldOffset (Forward * (AxisValue * s.PanSpeed * DeltaSeconds))

/-- Source `AIsoCameraPawn::PanRight` (lines 163-174), legacy axis handler. -/
def PanRight (M : FPlatformMath K) (DeltaSeconds AxisValue : K) (s : AIsoCameraPawn K) :
    AIsoCameraPawn K :=
  if FMath.IsNearlyZero AxisValue then s
  else
    let YawOnly : FRotator K := ⟨0, s.YawDeg, 0⟩
    let Right := FRotationMatrix.GetUnitAxisY M YawOnly
    s.AddActorWorldOffset (Right * (AxisValue * s.PanSpeed * DeltaSeconds))

/-- Source `AIsoCameraPawn::RotateYaw` (lines 176-188), legacy axis handler. -/
def RotateYaw [FloorRing K] (DeltaSeconds AxisValue : K) (s : AIsoCameraPawn K) :
    AIsoCameraPawn K :=
  if FMath.IsNearlyZero AxisValue then s
  else
    let Yaw1 := s.YawDeg + AxisValue * s.RotateSpeedDegPerSec * DeltaSeconds
    let Yaw2 := FMath.Fmod Yaw1 360
    { s with YawDeg := if Yaw2 < 0 then Yaw2 + 360 else Yaw2 }

/-- Source `AIsoCameraPawn::UpdateCameraTransform` (lines 190-220). -/
def UpdateCameraTransform (M : FPlatformMath K) (s : AIsoCameraPawn K) : AIsoCameraPawn K :=
  match s.Camera with
  | none => s
  | some _ =>
    if s.bUseDebugCamera then
      { s with Camera := some ⟨s.DebugLocation, ⟨s.DebugPitch, s.DebugYaw, 0⟩, s.DebugFOV⟩ }
    else
      let Focus := s.GetFocusPoint
      let CamRot : FRotator K := ⟨s.PitchDeg, s.YawDeg, 0⟩
      let Forward := CamRot.Vector M
      let CamLoc := Focus - (Forward * s.OrbitRadius)
      { s with Camera := some ⟨CamLoc, CamRot, s.FixedFOV⟩ }

/-- Source `AIsoCameraPawn::HandleZoom` (lines 222-234). -/
def HandleZoom (Axis : K) (s : AIsoCameraPawn K) : AIsoCameraPawn K :=
  if FMath.IsNearlyZero Axis then s
  else
    ApplyHeightScalingFromRadius
      { s with OrbitRadius :=
          FMath.Clamp (s.OrbitRadius - Axis * s.ZoomSpeed) s.OrbitRadiusMin s.OrbitRadiusMax }

/-- Source `AIsoCameraPawn::HandlePanForward` (lines 236-246). -/
def HandlePanForward (M : FPlatformMath K) (DT Axis : K) (s : AIsoCameraPawn K) :
    AIsoCameraPawn K :=
  if FMath.IsNearlyZero Axis then s
  else
    let YawOnly : FRotator K := ⟨0, s.YawDeg, 0⟩
    let Forward := YawOnly.Vector M
    s.AddActorWorldOffset (Forward * Axis * s.PanSpeed * DT)

/-- Source `AIsoCameraPawn::HandlePanRight` (lines 248-258). -/
def HandlePanRight (M : FPlatformMath K) (DT Axis : K) (s : AIsoCameraPawn K) :
    AIsoCameraPawn K :=
  if FMath.IsNearlyZero Axis then s
  else
    let YawOnly : FRotator K := ⟨0, s.YawDeg, 0⟩
    let Right := FRotationMatrix.GetUnitAxisY M YawOnly
    s.AddActorWorldOffset (Right * Axis * s.PanSpeed * DT)

/-- Source `AIsoCameraPawn::HandleRotate` (lines 261-267). -/
def HandleRotate (DeltaSeconds Axis : K) (s : AIsoCameraPawn K) : AIsoCameraPawn K :=
  if FMath.IsNearlyZero Axis then s
  else { s with YawDeg := s.YawDeg + Axis * s.RotateSpeedDegPerSec * DeltaSeconds }

/-- Source `AIsoCameraPawn::BeginPlay` (lines 30-50).  Registering the input
mapping context does not touch the pawn's properties. -/
def BeginPlay (M : FPlatformMath K) (s : AIsoCameraPawn K) : AIsoCameraPawn K :=
  UpdateCameraTransform M
    (ApplyHeightScalingFromRadius
      { s with OrbitRadius := FMath.Clamp s.OrbitRadius s.OrbitRadiusMin s.OrbitRadiusMax })

/-- Source `AIsoCameraPawn::Tick` (lines 52-60). -/
def Tick (M : FPlatformMath K) (s : AIsoCameraPawn K) : AIsoCameraPawn K :=
  UpdateCameraTransform M s

end AIsoCameraPawn

/-! ## Play session -/

/-- What can happen to the pawn after play start: one of the four input
actions bound in `SetupPlayerInputComponent` (lines 80-87) fires with an axis
value, one of the four legacy axis handlers is called, or the host ticks.
`dt` is the frame's `GetWorld()->GetDeltaSeconds()`. -/
inductive Event (K : Type) where
  | IA_PanForward (dt a : K)
  | IA_PanRight (dt a : K)
  | IA_Zoom (a : K)
  | IA_Rotate (dt a : K)
  | LegacyZoomCamera (a : K)
  | LegacyPanForward (dt a : K)
  | LegacyPanRight (dt a : K)
  | LegacyRotateYaw (dt a : K)
  | Tick (dt : K)

/-- One event applied to the pawn: the bindings of
`SetupPlayerInputComponent` (lines 80-87) for the input actions, the legacy
handler itself for a legacy call, `Tick` for a host tick. -/
def step [FloorRing K] (M : FPlatformMath K) (s : AIsoCameraPawn K) : Event K → AIsoCameraPawn K
  | .IA_PanForward dt a => s.HandlePanForward M dt a
  | .IA_PanRight dt a => s.HandlePanRight M dt a
  | .IA_Zoom a => s.HandleZoom a
  | .IA_Rotate dt a => s.HandleRotate dt a
  | .LegacyZoomCamera a => s.ZoomCamera a
  | .LegacyPanForward dt a => s.PanForward M dt a
  | .LegacyPanRight dt a => s.PanRight M dt a
  | .LegacyRotateYaw dt a => s.RotateYaw dt a
  | .Tick _ => s.Tick M

/-- The pawn after play start (`BeginPlay`) followed by the events `es`, in
order, from the authored pawn `s0`. -/
def play [FloorRing K] (M : FPlatformMath K) (s0 : AIsoCameraPawn K) (es : List (Event K)) :
    AIsoCameraPawn K :=
  es.foldl (step M) (AIsoCameraPawn.BeginPlay M s0)

end Field

end IsoCamera

/-! ## Lemmas on the engine math -/

namespace IsoCamera

section Lemmas

variable {K : Type} [LinearOrderedField K]

theorem FMath.Max_eq_max (a b : K) : FMath.Max a b = max a b := by
  unfold FMath.Max
  split_ifs with h
  · exact (max_eq_left h.le).symm
  · exact (max_eq_right (not_lt.mp h)).symm

theorem FMath.Min_eq_min (a b : K) : FMath.Min a b = min a b := by
  unfold FMath.Min
  split_ifs with h
  · exact (min_eq_left h.le).symm
  · exact (min_eq_right (not_lt.mp h)).symm

theorem FMath.Clamp_eq (x mn mx : K) : FMath.Clamp x mn mx = max (min x mx) mn := by
  simp only [FMath.Clamp, FMath.Max_eq_max, FMath.Min_eq_min]

/-- On an ordered range the clamp is the chain of comparisons
`X < Min ? Min : X < Max ? X : Max` of older engine versions. -/
theorem FMath.Clamp_eq_ite (x : K) {mn mx : K} (h : mn ≤ mx) :
    FMath.Clamp x mn mx = if x < mn then mn else if x < mx then x else mx := by
  rw [FMath.Clamp_eq]
  split_ifs with h1 h2
  · exact max_eq_right ((min_le_left _ _).trans h1.le)
  · rw [min_eq_left h2.le]; exact max_eq_left (not_lt.mp h1)
  · rw [min_eq_right (not_lt.mp h2)]; exact max_eq_left h

theorem FMath.le_Clamp (x mn mx : K) : mn ≤ FMath.Clamp x mn mx := by
  rw [FMath.Clamp_eq]; exact le_max_right _ _

theorem FMath.Clamp_le (x : K) {mn mx : K} (h : mn ≤ mx) : FMath.Clamp x mn mx ≤ mx := by
  rw [FMath.Clamp_eq]; exact max_le (min_le_right _ _) h

theorem FMath.Clamp_of_le_min {x mn : K} (mx : K) (hx : x ≤ mn) :
    FMath.Clamp x mn mx = mn := by
  rw [FMath.Clamp_eq]; exact max_eq_right ((min_le_left _ _).trans hx)

theorem FMath.Clamp_of_max_le {x mn mx : K} (h : mn ≤ mx) (hx : mx ≤ x) :
    FMath.Clamp x mn mx = mx := by
  rw [FMath.Clamp_eq, min_eq_right hx]; exact max_eq_left h

theorem FMath.Lerp_mem {a b t : K} (hab : a ≤ b) (h0 : 0 ≤ t) (h1 : t ≤ 1) :
    a ≤ FMath.Lerp a b t ∧ FMath.Lerp a b t ≤ b := by
  unfold FMath.Lerp
  have hba : 0 ≤ b - a := sub_nonneg.mpr hab
  constructor
  · nlinarith [mul_nonneg h0 hba]
  · nlinarith [mul_nonneg (sub_nonneg.mpr h1) hba]

theorem FMath.Abs_eq_abs (a : K) : FMath.Abs a = |a| := by
  unfold FMath.Abs
  split_ifs with h
  · exact (abs_of_neg h).symm
  · exact (abs_of_nonneg (not_lt.mp h)).symm

/-- An invariant that holds after play start and is kept by every event holds
in every state of the play session. -/
theorem play_invariant [FloorRing K] (M : FPlatformMath K) (P : AIsoCameraPawn K → Prop)
    (s0 : AIsoCameraPawn K) (h0 : P (AIsoCameraPawn.BeginPlay M s0))
    (hstep : ∀ s e, P s → P (step M s e)) (es : List (Event K)) : P (play M s0 es) := by
  unfold play
  generalize AIsoCameraPawn.BeginPlay M s0 = s at h0
  induction es generalizing s with
  | nil => exact h0
  | cons e es ih => exact ih _ (hstep s e h0)

namespace AIsoCameraPawn

/-- What the radius clamp followed by the height law does to the zoom fields:
the shared body of `BeginPlay`, `HandleZoom` and `ZoomCamera`. -/
theorem zoom_body (s : AIsoCameraPawn K) (x : K) :
    let t := ApplyHeightScalingFromRadius
      { s with OrbitRadius := FMath.Clamp x s.OrbitRadiusMin s.OrbitRadiusMax }
    t.OrbitRadius = FMath.Clamp x s.OrbitRadiusMin s.OrbitRadiusMax ∧
    t.OrbitRadiusMin = s.OrbitRadiusMin ∧ t.OrbitRadiusMax = s.OrbitRadiusMax ∧
    t.bScaleHeightWithZoom = s.bScaleHeightWithZoom ∧
    t.HeightMin = s.HeightMin ∧ t.HeightMax = s.HeightMax ∧
    t.Height = (if s.bScaleHeightWithZoom then
      FMath.Lerp s.HeightMin s.HeightMax
        (FMath.Clamp ((FMath.Clamp x s.OrbitRadiusMin s.OrbitRadiusMax - s.OrbitRadiusMin) /
          FMath.Max KINDA_SMALL_NUMBER (s.OrbitRadiusMax - s.OrbitRadiusMin)) 0 1)
      else s.Height) := by
  intro t
  cases h : s.bScaleHeightWithZoom <;> simp [t, ApplyHeightScalingFromRadius, h]

/-- The transform update writes the camera component only. -/
theorem UpdateCameraTransform_frame (M : FPlatformMath K) (s : AIsoCameraPawn K) :
    UpdateCameraTransform M s = { s with Camera := (UpdateCameraTransform M s).Camera } := by
  unfold UpdateCameraTransform
  cases hc : s.Camera with
  | none => cases s; simp_all
  | some c => cases hd : s.bUseDebugCamera <;> simp [hd]

/-- The translation of the pawn writes its location and the camera only. -/
theorem AddActorWorldOffset_frame (s : AIsoCameraPawn K) (d : FVector K) :
    s.AddActorWorldOffset d =
      { s with ActorLocation := (s.AddActorWorldOffset d).ActorLocation
               Camera := (s.AddActorWorldOffset d).Camera } := rfl

end AIsoCameraPawn

/-- The height the height-scaling law assigns at radius `r`. -/
theorem scaled_height_mem (hmin hmax r rmin rmax : K) (h : hmin ≤ hmax) :
    hmin ≤ FMath.Lerp hmin hmax
        (FMath.Clamp ((r - rmin) / FMath.Max KINDA_SMALL_NUMBER (rmax - rmin)) 0 1) ∧
    FMath.Lerp hmin hmax
        (FMath.Clamp ((r - rmin) / FMath.Max KINDA_SMALL_NUMBER (rmax - rmin)) 0 1) ≤ hmax :=
  FMath.Lerp_mem h (FMath.le_Clamp _ _ _) (FMath.Clamp_le _ zero_le_one)

/-- Effect of one event on the fields of the zoom and height laws: the
configuration is kept, and radius and height are either both kept or are the
result of the radius clamp followed by the height law. -/
theorem step_zoom_fields [FloorRing K] (M : FPlatformMath K) (s : AIsoCameraPawn K)
    (e : Event K) :
    (step M s e).OrbitRadiusMin = s.OrbitRadiusMin ∧
    (step M s e).OrbitRadiusMax = s.OrbitRadiusMax ∧
    (step M s e).bScaleHeightWithZoom = s.bScaleHeightWithZoom ∧
    (step M s e).HeightMin = s.HeightMin ∧ (step M s e).HeightMax = s.HeightMax ∧
    (((step M s e).OrbitRadius = s.OrbitRadius ∧ (step M s e).Height = s.Height) ∨
      ∃ x, (step M s e).OrbitRadius = FMath.Clamp x s.OrbitRadiusMin s.OrbitRadiusMax ∧
        (step M s e).Height = (if s.bScaleHeightWithZoom then
          FMath.Lerp s.HeightMin s.HeightMax
            (FMath.Clamp ((FMath.Clamp x s.OrbitRadiusMin s.OrbitRadiusMax - s.OrbitRadiusMin) /
              FMath.Max KINDA_SMALL_NUMBER (s.OrbitRadiusMax - s.OrbitRadiusMin)) 0 1)
          else s.Height)) := by
  cases e with
  | IA_Zoom a =>
    cases h : FMath.IsNearlyZero a
    · obtain ⟨h1, h2, h3, h4, h5, h6, h7⟩ :=
        AIsoCameraPawn.zoom_body s (s.OrbitRadius - a * s.ZoomSpeed)
      simp only [step, AIsoCameraPawn.HandleZoom, h, Bool.false_eq_true, if_false]
      exact ⟨h2, h3, h4, h5, h6, Or.inr ⟨_, h1, h7⟩⟩
    · simp [step, AIsoCameraPawn.HandleZoom, h]
  | LegacyZoomCamera a =>
    cases h : FMath.IsNearlyZero a
    · obtain ⟨h1, h2, h3, h4, h5, h6, h7⟩ :=
        AIsoCameraPawn.zoom_body s (s.OrbitRadius - a * s.ZoomSpeed)
      simp only [step, AIsoCameraPawn.ZoomCamera, h, Bool.false_eq_true, if_false]
      exact ⟨h2, h3, h4, h5, h6, Or.inr ⟨_, h1, h7⟩⟩
    · simp [step, AIsoCameraPawn.ZoomCamera, h]
  | IA_PanForward dt a =>
    cases h : FMath.IsNearlyZero a
    · simp only [step, AIsoCameraPawn.HandlePanForward, h, Bool.false_eq_true, if_false]
      rw [AIsoCameraPawn.AddActorWorldOffset_frame]; simp
    · simp [step, AIsoCameraPawn.HandlePanForward, h]
  | IA_PanRight dt a =>
    cases h : FMath.IsNearlyZero a
    · simp only [step, AIsoCameraPawn.HandlePanRight, h, Bool.false_eq_true, if_false]
      rw [AIsoCameraPawn.AddActorWorldOffset_frame]; simp
    · simp [step, AIsoCameraPawn.HandlePanRight, h]
  | LegacyPanForward dt a =>
    cases h : FMath.IsNearlyZero a
    · simp only [step, AIsoCameraPawn.PanForward, h, Bool.false_eq_true, if_false]
      rw [AIsoCameraPawn.AddActorWorldOffset_frame]; simp
    · simp [step, AIsoCameraPawn.PanForward, h]
  | LegacyPanRight dt a =>
    cases h : FMath.IsNearlyZero a
    · simp only [step, AIsoCameraPawn.PanRight, h, Bool.false_eq_true, if_false]
      rw [AIsoCameraPawn.AddActorWorldOffset_frame]; simp
    · simp [step, AIsoCameraPawn.PanRight, h]
  | IA_Rotate dt a =>
    cases h : FMath.IsNearlyZero a <;> simp [step, AIsoCameraPawn.HandleRotate, h]
  | LegacyRotateYaw dt a =>
    cases h : FMath.IsNearlyZero a <;> simp [step, AIsoCameraPawn.RotateYaw, h]
  | Tick dt =>
    simp only [step, AIsoCameraPawn.Tick]
    rw [AIsoCameraPawn.UpdateCameraTransform_frame]; simp

/-- Effect of play start on the fields of the zoom and height laws. -/
theorem BeginPlay_zoom_fields (M : FPlatformMath K) (s : AIsoCameraPawn K) :
    (s.BeginPlay M).OrbitRadiusMin = s.OrbitRadiusMin ∧
    (s.BeginPlay M).OrbitRadiusMax = s.OrbitRadiusMax ∧
    (s.BeginPlay M).bScaleHeightWithZoom = s.bScaleHeightWithZoom ∧
    (s.BeginPlay M).HeightMin = s.HeightMin ∧ (s.BeginPlay M).HeightMax = s.HeightMax ∧
    (s.BeginPlay M).OrbitRadius = FMath.Clamp s.OrbitRadius s.OrbitRadiusMin s.OrbitRadiusMax ∧
    (s.BeginPlay M).Height = (if s.bScaleHeightWithZoom then
      FMath.Lerp s.HeightMin s.HeightMax
        (FMath.Clamp ((FMath.Clamp s.OrbitRadius s.OrbitRadiusMin s.OrbitRadiusMax -
            s.OrbitRadiusMin) /
          FMath.Max KINDA_SMALL_NUMBER (s.OrbitRadiusMax - s.OrbitRadiusMin)) 0 1)
      else s.Height) := by
  obtain ⟨h1, h2, h3, h4, h5, h6, h7⟩ := AIsoCameraPawn.zoom_body s s.OrbitRadius
  unfold AIsoCameraPawn.BeginPlay
  rw [AIsoCameraPawn.UpdateCameraTransform_frame]
  exact ⟨h2, h3, h4, h5, h6, h1, h7⟩

/-! ### Vector algebra and the transform update -/

theorem FVector.sub_sub_scale (f v : FVector K) (r : K) : f - (f - v * r) = v * r := by
  show FVector.sub f (FVector.sub f (FVector.scale v r)) = FVector.scale v r
  simp [FVector.sub, FVector.scale]

theorem FVector.sub_scale_sub (f v : FVector K) (r : K) :
    (f - v * r) - f = v * (-r) := by
  show FVector.sub (FVector.sub f (FVector.scale v r)) f = FVector.scale v (-r)
  simp [FVector.sub, FVector.scale]

theorem FVector.SizeSquared_scale (v : FVector K) (r : K) :
    (v * r).SizeSquared = v.SizeSquared * (r * r) := by
  show (FVector.scale v r).SizeSquared = v.SizeSquared * (r * r)
  simp only [FVector.SizeSquared, FVector.scale]
  ring

/-- The forward vector of a rotation has squared length one. -/
theorem FRotator.Vector_SizeSquared {M : FPlatformMath K} (hM : M.Lawful) (r : FRotator K) :
    (r.Vector M).SizeSquared = 1 := by
  have hp := hM.sq_add_sq r.Pitch
  have hy := hM.sq_add_sq r.Yaw
  simp only [FRotator.Vector, FVector.SizeSquared]
  calc M.CosDeg r.Pitch * M.CosDeg r.Yaw * (M.CosDeg r.Pitch * M.CosDeg r.Yaw) +
        M.CosDeg r.Pitch * M.SinDeg r.Yaw * (M.CosDeg r.Pitch * M.SinDeg r.Yaw) +
        M.SinDeg r.Pitch * M.SinDeg r.Pitch
      = M.CosDeg r.Pitch * M.CosDeg r.Pitch *
          (M.CosDeg r.Yaw * M.CosDeg r.Yaw + M.SinDeg r.Yaw * M.SinDeg r.Yaw) +
        M.SinDeg r.Pitch * M.SinDeg r.Pitch := by ring
    _ = 1 := by rw [hy, mul_one, hp]

/-- A vector of squared length one, scaled by `r`, is a positive multiple of
itself exactly when `r` is positive. -/
theorem FVector.pos_multiple_iff {v : FVector K} (hv : v.SizeSquared = 1) (r : K) :
    (∃ k : K, 0 < k ∧ v * r = v * k) ↔ 0 < r := by
  constructor
  · rintro ⟨k, hk, h⟩
    have h2 : (v * r).dot v = (v * k).dot v := by rw [h]
    have e : ∀ t : K, (v * t).dot v = t * v.SizeSquared := by
      intro t
      show (FVector.scale v t).dot v = t * v.SizeSquared
      simp only [FVector.dot, FVector.scale, FVector.SizeSquared]
      ring
    rw [e, e, hv, mul_one, mul_one] at h2
    rw [h2]; exact hk
  · intro hr
    exact ⟨r, hr, rfl⟩

namespace AIsoCameraPawn

/-- The transform update on the normal path, when the camera exists. -/
theorem UpdateCameraTransform_normal (M : FPlatformMath K) (s : AIsoCameraPawn K)
    (hcam : s.Camera.isSome = true) (hdbg : s.bUseDebugCamera = false) :
    (s.UpdateCameraTransform M).Camera =
      some ⟨s.GetFocusPoint - (FRotator.Vector M ⟨s.PitchDeg, s.YawDeg, 0⟩) * s.OrbitRadius,
        ⟨s.PitchDeg, s.YawDeg, 0⟩, s.FixedFOV⟩ := by
  unfold UpdateCameraTransform
  cases hc : s.Camera with
  | none => rw [hc] at hcam; cases hcam
  | some c => simp [hdbg]

/-- The transform update on the debug path, when the camera exists. -/
theorem UpdateCameraTransform_debug (M : FPlatformMath K) (s : AIsoCameraPawn K)
    (hcam : s.Camera.isSome = true) (hdbg : s.bUseDebugCamera = true) :
    (s.UpdateCameraTransform M).Camera =
      some ⟨s.DebugLocation, ⟨s.DebugPitch, s.DebugYaw, 0⟩, s.DebugFOV⟩ := by
  unfold UpdateCameraTransform
  cases hc : s.Camera with
  | none => rw [hc] at hcam; cases hcam
  | some c => simp [hdbg]

/-- The transform update reads neither the camera it overwrites nor anything
it writes: the focus and the orbit parameters are those of the state. -/
theorem UpdateCameraTransform_keeps (M : FPlatformMath K) (s : AIsoCameraPawn K) :
    (s.UpdateCameraTransform M).GetFocusPoint = s.GetFocusPoint ∧
    (s.UpdateCameraTransform M).OrbitRadius = s.OrbitRadius ∧
    (s.UpdateCameraTransform M).PitchDeg = s.PitchDeg ∧
    (s.UpdateCameraTransform M).YawDeg = s.YawDeg := by
  rw [UpdateCameraTransform_frame]
  exact ⟨rfl, rfl, rfl, rfl⟩

end AIsoCameraPawn

/-- The camera component created by the constructor is never removed: every
state of a play session has it. -/
theorem play_camera_isSome [FloorRing K] (M : FPlatformMath K) (s0 : AIsoCameraPawn K)
    (h0 : s0.Camera.isSome = true) (es : List (Event K)) :
    (play M s0 es).Camera.isSome = true := by
  have upd : ∀ s : AIsoCameraPawn K, s.Camera.isSome = true →
      (s.UpdateCameraTransform M).Camera.isSome = true := by
    intro s hs
    cases hd : s.bUseDebugCamera
    · rw [AIsoCameraPawn.UpdateCameraTransform_normal M s hs hd]; rfl
    · rw [AIsoCameraPawn.UpdateCameraTransform_debug M s hs hd]; rfl
  have app : ∀ s : AIsoCameraPawn K, s.ApplyHeightScalingFromRadius.Camera = s.Camera := by
    intro s
    cases h : s.bScaleHeightWithZoom <;> simp [AIsoCameraPawn.ApplyHeightScalingFromRadius, h]
  have off : ∀ (s : AIsoCameraPawn K) (d : FVector K), s.Camera.isSome = true →
      (s.AddActorWorldOffset d).Camera.isSome = true := by
    intro s d hs
    simp [AIsoCameraPawn.AddActorWorldOffset, hs]
  refine play_invariant M (fun s => s.Camera.isSome = true) s0 ?_ ?_ es
  · unfold AIsoCameraPawn.BeginPlay
    apply upd
    rw [app]; exact h0
  · intro s e hs
    cases e with
    | IA_Zoom a =>
      cases h : FMath.IsNearlyZero a <;> simp [step, AIsoCameraPawn.HandleZoom, h, app, hs]
    | LegacyZoomCamera a =>
      cases h : FMath.IsNearlyZero a <;> simp [step, AIsoCameraPawn.ZoomCamera, h, app, hs]
    | IA_PanForward dt a =>
      cases h : FMath.IsNearlyZero a
      · simp only [step, AIsoCameraPawn.HandlePanForward, h, Bool.false_eq_true, if_false]
        exact off _ _ hs
      · simp [step, AIsoCameraPawn.HandlePanForward, h, hs]
    | IA_PanRight dt a =>
      cases h : FMath.IsNearlyZero a
      · simp only [step, AIsoCameraPawn.HandlePanRight, h, Bool.false_eq_true, if_false]
        exact off _ _ hs
      · simp [step, AIsoCameraPawn.HandlePanRight, h, hs]
    | LegacyPanForward dt a =>
      cases h : FMath.IsNearlyZero a
      · simp only [step, AIsoCameraPawn.PanForward, h, Bool.false_eq_true, if_false]
        exact off _ _ hs
      · simp [step, AIsoCameraPawn.PanForward, h, hs]
    | LegacyPanRight dt a =>
      cases h : FMath.IsNearlyZero a
      · simp only [step, AIsoCameraPawn.PanRight, h, Bool.false_eq_true, if_false]
        exact off _ _ hs
      · simp [step, AIsoCameraPawn.PanRight, h, hs]
    | IA_Rotate dt a =>
      cases h : FMath.IsNearlyZero a <;> simp [step, AIsoCameraPawn.HandleRotate, h, hs]
    | LegacyRotateYaw dt a =>
      cases h : FMath.IsNearlyZero a <;> simp [step, AIsoCameraPawn.RotateYaw, h, hs]
    | Tick dt => exact upd s hs

/-- The zoom handler writes the radius and the height only. -/
theorem AIsoCameraPawn.HandleZoom_frame (s : AIsoCameraPawn K) (a : K) :
    s.HandleZoom a =
      { s with OrbitRadius := (s.HandleZoom a).OrbitRadius
               Height := (s.HandleZoom a).Height } := by
  cases h : FMath.IsNearlyZero a
  · cases hs : s.bScaleHeightWithZoom <;>
      simp [AIsoCameraPawn.HandleZoom, AIsoCameraPawn.ApplyHeightScalingFromRadius, h, hs]
  · simp only [AIsoCameraPawn.HandleZoom, h, if_true]

/-- The radius after the zoom handler: kept when the axis value is nearly
zero, clamped otherwise. -/
theorem AIsoCameraPawn.HandleZoom_OrbitRadius (s : AIsoCameraPawn K) (a : K) :
    (s.HandleZoom a).OrbitRadius =
      if FMath.IsNearlyZero a then s.OrbitRadius
      else FMath.Clamp (s.OrbitRadius - a * s.ZoomSpeed) s.OrbitRadiusMin s.OrbitRadiusMax := by
  cases h : FMath.IsNearlyZero a
  · simp only [AIsoCameraPawn.HandleZoom, h, Bool.false_eq_true, if_false]
    exact (AIsoCameraPawn.zoom_body s _).1
  · simp [AIsoCameraPawn.HandleZoom, h]

/-- Play start keeps the debug switch. -/
theorem BeginPlay_bUseDebugCamera (M : FPlatformMath K) (s : AIsoCameraPawn K) :
    (s.BeginPlay M).bUseDebugCamera = s.bUseDebugCamera := by
  unfold AIsoCameraPawn.BeginPlay
  rw [AIsoCameraPawn.UpdateCameraTransform_frame]
  cases h : s.bScaleHeightWithZoom <;> simp [AIsoCameraPawn.ApplyHeightScalingFromRadius, h]

/-- Sine and cosine of an angle in degrees, with the inverse square root, form
a lawful instance of the engine primitives over the reals. -/
theorem real_FPlatformMath_Lawful :
    FPlatformMath.Lawful (K := ℝ)
      ⟨fun d => Real.sin (d * Real.pi / 180), fun d => Real.cos (d * Real.pi / 180),
        fun x => (Real.sqrt x)⁻¹⟩ where
  sq_add_sq d := by
    have := Real.cos_sq_add_sin_sq (d * Real.pi / 180)
    simpa [sq] using this
  sin_zero := by simp
  cos_zero := by simp

/-! ### Componentwise form of the vector operations -/

theorem FVector.add_def (a b : FVector K) : a + b = ⟨a.X + b.X, a.Y + b.Y, a.Z + b.Z⟩ := rfl

theorem FVector.sub_def (a b : FVector K) : a - b = ⟨a.X - b.X, a.Y - b.Y, a.Z - b.Z⟩ := rfl

theorem FVector.mul_def (v : FVector K) (c : K) : v * c = ⟨v.X * c, v.Y * c, v.Z * c⟩ := rfl

/-- Translating back by the opposite offset restores a vector. -/
theorem FVector.add_scale_neg (l v : FVector K) (a p d : K) :
    l + v * a * p * d + v * (-a) * p * d = l := by
  simp only [FVector.add_def, FVector.mul_def]
  ext <;> simp only <;> ring

/-- The dead zone is symmetric. -/
theorem FMath.IsNearlyZero_neg (a : K) : FMath.IsNearlyZero (-a) = FMath.IsNearlyZero a := by
  simp only [FMath.IsNearlyZero, FMath.Abs_eq_abs, abs_neg]

/-- Zero is in the dead zone. -/
theorem FMath.IsNearlyZero_zero : FMath.IsNearlyZero (0 : K) = true := by
  simp [FMath.IsNearlyZero, FMath.Abs_eq_abs, UE_SMALL_NUMBER]

/-- Outside the dead zone means `|a| > UE_SMALL_NUMBER`. -/
theorem FMath.IsNearlyZero_eq_false_iff (a : K) :
    FMath.IsNearlyZero a = false ↔ UE_SMALL_NUMBER < |a| := by
  simp only [FMath.IsNearlyZero, FMath.Abs_eq_abs, decide_eq_false_iff_not, not_le]

/-- The safe denominator of the height law is positive. -/
theorem FMath.Max_KINDA_SMALL_NUMBER_pos (d : K) : 0 < FMath.Max KINDA_SMALL_NUMBER d := by
  rw [FMath.Max_eq_max]
  exact lt_max_of_lt_left (by norm_num [KINDA_SMALL_NUMBER])

/-- The clamp is monotone in its first argument. -/
theorem FMath.Clamp_mono {x y : K} (h : x ≤ y) (mn mx : K) :
    FMath.Clamp x mn mx ≤ FMath.Clamp y mn mx := by
  rw [FMath.Clamp_eq, FMath.Clamp_eq]
  exact max_le_max (min_le_min h le_rfl) le_rfl

/-- Translating the pawn twice by opposite offsets restores it. -/
theorem AIsoCameraPawn.AddActorWorldOffset_cancel (s : AIsoCameraPawn K) (d e : FVector K)
    (h : ∀ l : FVector K, l + d + e = l) :
    (s.AddActorWorldOffset d).AddActorWorldOffset e = s := by
  cases s with
  | mk loc cam =>
    cases cam with
    | none => simp [AIsoCameraPawn.AddActorWorldOffset, h]
    | some c => simp [AIsoCameraPawn.AddActorWorldOffset, h]

/-! ### Pan directions -/

/-- The forward vector of a yaw-only rotation is `(cos y, sin y, 0)`. -/
theorem FRotator.Vector_yawOnly {M : FPlatformMath K} (hM : M.Lawful) (y : K) :
    FRotator.Vector M ⟨0, y, 0⟩ = ⟨M.CosDeg y, M.SinDeg y, 0⟩ := by
  simp [FRotator.Vector, hM.sin_zero, hM.cos_zero]

/-- The right vector of a yaw-only rotation is `(-sin y, cos y, 0)`. -/
theorem FRotationMatrix.GetUnitAxisY_yawOnly {M : FPlatformMath K} (hM : M.Lawful) (y : K) :
    FRotationMatrix.GetUnitAxisY M ⟨0, y, 0⟩ = ⟨-M.SinDeg y, M.CosDeg y, 0⟩ := by
  have h1 : FVector.SizeSquared (⟨-M.SinDeg y, M.CosDeg y, 0⟩ : FVector K) = 1 := by
    have := hM.sq_add_sq y
    simp only [FVector.SizeSquared]
    linarith
  simp only [FRotationMatrix.GetUnitAxisY, hM.sin_zero, hM.cos_zero, zero_mul, one_mul,
    zero_sub, zero_add, neg_zero, FVector.GetSafeNormal, h1, if_true]

/-- The rotate handler adds the axis value, cut to zero inside the dead zone,
times the rotate speed and the frame time. -/
theorem AIsoCameraPawn.HandleRotate_eq (s : AIsoCameraPawn K) (dt a : K) :
    s.HandleRotate dt a =
      { s with YawDeg := s.YawDeg +
          (if FMath.IsNearlyZero a then 0 else a) * s.RotateSpeedDegPerSec * dt } := by
  cases h : FMath.IsNearlyZero a
  · simp [AIsoCameraPawn.HandleRotate, h]
  · simp [AIsoCameraPawn.HandleRotate, h]

/-- The pan-forward handler translates the pawn by the forward vector times the
axis value, cut to zero inside the dead zone, the pan speed and the frame
time. -/
theorem AIsoCameraPawn.HandlePanForward_eq (M : FPlatformMath K) (s : AIsoCameraPawn K)
    (dt a : K) :
    s.HandlePanForward M dt a =
      s.AddActorWorldOffset (FRotator.Vector M ⟨0, s.YawDeg, 0⟩ *
        (if FMath.IsNearlyZero a then 0 else a) * s.PanSpeed * dt) := by
  cases h : FMath.IsNearlyZero a
  · simp [AIsoCameraPawn.HandlePanForward, h]
  · cases s with
    | mk loc cam =>
      cases cam <;>
        simp [AIsoCameraPawn.HandlePanForward, h, AIsoCameraPawn.AddActorWorldOffset,
          FVector.add_def, FVector.mul_def]

/-- The pan-right handler translates the pawn by the right vector times the
axis value, cut to zero inside the dead zone, the pan speed and the frame
time. -/
theorem AIsoCameraPawn.HandlePanRight_eq (M : FPlatformMath K) (s : AIsoCameraPawn K)
    (dt a : K) :
    s.HandlePanRight M dt a =
      s.AddActorWorldOffset (FRotationMatrix.GetUnitAxisY M ⟨0, s.YawDeg, 0⟩ *
        (if FMath.IsNearlyZero a then 0 else a) * s.PanSpeed * dt) := by
  cases h : FMath.IsNearlyZero a
  · simp [AIsoCameraPawn.HandlePanRight, h]
  · cases s with
    | mk loc cam =>
      cases cam <;>
        simp [AIsoCameraPawn.HandlePanRight, h, AIsoCameraPawn.AddActorWorldOffset,
          FVector.add_def, FVector.mul_def]

/-- Two translations of the pawn commute. -/
theorem AIsoCameraPawn.AddActorWorldOffset_comm (s : AIsoCameraPawn K) (d e : FVector K) :
    (s.AddActorWorldOffset d).AddActorWorldOffset e =
      (s.AddActorWorldOffset e).AddActorWorldOffset d := by
  have h : ∀ l : FVector K, l + d + e = l + e + d := by
    intro l
    simp only [FVector.add_def]
    ext <;> simp only <;> ring
  cases s with
  | mk loc cam =>
    cases cam with
    | none => simp [AIsoCameraPawn.AddActorWorldOffset, h]
    | some c => simp [AIsoCameraPawn.AddActorWorldOffset, h]

/-! ### Legacy handlers against the named-action handlers -/

theorem FVector.mul_assoc3 (v : FVector K) (a p d : K) : v * (a * p * d) = v * a * p * d := by
  simp only [FVector.mul_def]
  ext <;> simp only <;> ring

/-- The legacy zoom handler is the named-action zoom handler. -/
theorem AIsoCameraPawn.ZoomCamera_eq_HandleZoom (s : AIsoCameraPawn K) (a : K) :
    s.ZoomCamera a = s.HandleZoom a := rfl

/-- The legacy pan-forward handler is the named-action pan-forward handler. -/
theorem AIsoCameraPawn.PanForward_eq_HandlePanForward (M : FPlatformMath K)
    (s : AIsoCameraPawn K) (dt a : K) : s.PanForward M dt a = s.HandlePanForward M dt a := by
  simp only [AIsoCameraPawn.PanForward, AIsoCameraPawn.HandlePanForward, FVector.mul_assoc3]

/-- The legacy pan-right handler is the named-action pan-right handler. -/
theorem AIsoCameraPawn.PanRight_eq_HandlePanRight (M : FPlatformMath K)
    (s : AIsoCameraPawn K) (dt a : K) : s.PanRight M dt a = s.HandlePanRight M dt a := by
  simp only [AIsoCameraPawn.PanRight, AIsoCameraPawn.HandlePanRight, FVector.mul_assoc3]

/-- One is outside the dead zone. -/
theorem FMath.IsNearlyZero_one : FMath.IsNearlyZero (1 : K) = false := by
  rw [FMath.IsNearlyZero_eq_false_iff, abs_one]
  norm_num [UE_SMALL_NUMBER]

/-- The engine `Fmod` of 368 by 360 is 8. -/
theorem FMath.Fmod_368_360 [FloorRing K] : FMath.Fmod (368 : K) 360 = 8 := by
  have ht : FMath.truncToInt ((368 : K) / 360) = 1 := by
    unfold FMath.truncToInt
    rw [if_pos (by norm_num), Int.floor_eq_iff]
    norm_num
  unfold FMath.Fmod
  rw [if_neg (by simp only [FMath.Abs_eq_abs, UE_SMALL_NUMBER]; norm_num), ht]
  norm_num

/-! ### Degenerate and inverted radius ranges -/

/-- Inside `[0, 1]` the clamp to `[0, 1]` is idle. -/
theorem FMath.Clamp_of_mem {x mn mx : K} (h1 : mn ≤ x) (h2 : x ≤ mx) :
    FMath.Clamp x mn mx = x := by
  rw [FMath.Clamp_eq, min_eq_left h2, max_eq_left h1]

/-- On an inverted range the clamp returns the lower limit. -/
theorem FMath.Clamp_of_inverted (x : K) {mn mx : K} (h : mx < mn) :
    FMath.Clamp x mn mx = mn := by
  rw [FMath.Clamp_eq]
  exact max_eq_right ((min_le_right _ _).trans h.le)

/-- On an inverted range the comparison chain
`X < Min ? Min : X < Max ? X : Max` of older engine versions returns one of
the two limits, hence a value between them. -/
theorem clamp_chain_inverted (x : K) {mn mx : K} (h : mx < mn) :
    mx ≤ (if x < mn then mn else if x < mx then x else mx) ∧
    (if x < mn then mn else if x < mx then x else mx) ≤ mn := by
  split_ifs with h1 h2
  · exact ⟨h.le, le_rfl⟩
  · exact absurd (h2.trans h) h1
  · exact ⟨le_rfl, h.le⟩

/-- The height law on a radius range no wider than `KINDA_SMALL_NUMBER`: the
safe denominator is `KINDA_SMALL_NUMBER` and the clamp to `[0, 1]` is idle. -/
theorem degenerate_height (hmin hmax r rmin rmax : K) (h1 : rmin ≤ r) (h2 : r ≤ rmax)
    (hd : rmax - rmin ≤ KINDA_SMALL_NUMBER) :
    FMath.Lerp hmin hmax
        (FMath.Clamp ((r - rmin) / FMath.Max KINDA_SMALL_NUMBER (rmax - rmin)) 0 1) =
      hmin + (r - rmin) / KINDA_SMALL_NUMBER * (hmax - hmin) := by
  have he : (0 : K) < KINDA_SMALL_NUMBER := by norm_num [KINDA_SMALL_NUMBER]
  rw [FMath.Max_eq_max, max_eq_left hd,
    FMath.Clamp_of_mem (div_nonneg (sub_nonneg.mpr h1) he.le)
      ((div_le_one he).mpr (by linarith))]
  rfl

/-- With the height law on and an ordered height range, every state of a play
session has its height in the range. -/
theorem play_height_mem [FloorRing K] (M : FPlatformMath K) (s0 : AIsoCameraPawn K)
    (hscale : s0.bScaleHeightWithZoom = true) (hcfg : s0.HeightMin ≤ s0.HeightMax)
    (es : List (Event K)) :
    s0.HeightMin ≤ (play M s0 es).Height ∧ (play M s0 es).Height ≤ s0.HeightMax := by
  have key := play_invariant M (fun s => s.bScaleHeightWithZoom = true ∧
    s.HeightMin = s0.HeightMin ∧ s.HeightMax = s0.HeightMax ∧ s0.HeightMin ≤ s.Height ∧
    s.Height ≤ s0.HeightMax) s0 ?_ ?_ es
  · exact key.2.2.2
  · obtain ⟨-, -, h3, h4, h5, -, h7⟩ := BeginPlay_zoom_fields M s0
    rw [h3, h4, h5, h7, hscale, if_pos rfl]
    exact ⟨rfl, rfl, rfl, scaled_height_mem _ _ _ _ _ hcfg⟩
  · rintro s e ⟨i0, i1, i2, i3, i4⟩
    obtain ⟨-, -, h3, h4, h5, h6⟩ := step_zoom_fields M s e
    rw [h3, h4, h5]
    refine ⟨i0, i1, i2, ?_⟩
    rcases h6 with ⟨-, h6⟩ | ⟨x, -, h6⟩
    · rw [h6]; exact ⟨i3, i4⟩
    · rw [h6, i0, if_pos rfl, i1, i2]
      exact scaled_height_mem _ _ _ _ _ hcfg

/-! ### Yaw wrapping of the legacy rotate handler -/

/-- The wrapping `Fmod` by 360 followed by `+ 360` when negative is the
representative of the angle in `[0, 360)`: 360 times the fractional part of
`x / 360`. -/
theorem FMath.wrap360 [FloorRing K] (x : K) :
    (if FMath.Fmod x 360 < 0 then FMath.Fmod x 360 + 360 else FMath.Fmod x 360) =
      360 * Int.fract (x / 360) := by
  have h360 : ¬ FMath.Abs (360 : K) ≤ UE_SMALL_NUMBER := by
    simp only [FMath.Abs_eq_abs, UE_SMALL_NUMBER]; norm_num
  have hx : x = 360 * (x / 360) := by field_simp
  have hf0 := Int.fract_nonneg (x / 360)
  have hf1 := Int.fract_lt_one (x / 360)
  have hfl : ((⌊x / 360⌋ : ℤ) : K) = x / 360 - Int.fract (x / 360) := by
    rw [← Int.self_sub_floor]; ring
  unfold FMath.Fmod FMath.truncToInt
  rw [if_neg h360]
  by_cases hq : 0 ≤ x / 360
  · rw [if_pos hq, hfl]
    have e : x - (x / 360 - Int.fract (x / 360)) * 360 = 360 * Int.fract (x / 360) := by
      linarith
    rw [e, if_neg (by linarith)]
  · rw [if_neg hq]
    rcases Int.fract_eq_zero_or_add_one_sub_ceil (x / 360) with h0 | h1
    · have hc : ((⌈x / 360⌉ : ℤ) : K) = x / 360 := by
        have hq' : x / 360 = ((⌊x / 360⌋ : ℤ) : K) := by rw [hfl, h0, sub_zero]
        rw [hq', Int.ceil_intCast, ← hq']
      have e : x - ((⌈x / 360⌉ : ℤ) : K) * 360 = 0 := by rw [hc]; linarith
      rw [e, if_neg (lt_irrefl _), h0, mul_zero]
    · have hc : ((⌈x / 360⌉ : ℤ) : K) = x / 360 + 1 - Int.fract (x / 360) := by linarith
      have e : x - ((⌈x / 360⌉ : ℤ) : K) * 360 = 360 * Int.fract (x / 360) - 360 := by
        rw [hc]; linarith
      rw [e, if_pos (by linarith)]
      ring

/-- Outside the dead zone the legacy `RotateYaw` leaves the yaw in `[0, 360)`;
it is the yaw `HandleRotate` computes, reduced modulo 360. -/
theorem AIsoCameraPawn.RotateYaw_YawDeg [FloorRing K] (s : AIsoCameraPawn K) (dt a : K)
    (ha : FMath.IsNearlyZero a = false) :
    (s.RotateYaw dt a).YawDeg = 360 * Int.fract ((s.HandleRotate dt a).YawDeg / 360) ∧
    0 ≤ (s.RotateYaw dt a).YawDeg ∧ (s.RotateYaw dt a).YawDeg < 360 := by
  have e : (s.RotateYaw dt a).YawDeg =
      360 * Int.fract ((s.HandleRotate dt a).YawDeg / 360) := by
    simp only [AIsoCameraPawn.RotateYaw, AIsoCameraPawn.HandleRotate, ha, Bool.false_eq_true,
      if_false]
    exact FMath.wrap360 _
  have hf0 := Int.fract_nonneg ((s.HandleRotate dt a).YawDeg / 360)
  have hf1 := Int.fract_lt_one ((s.HandleRotate dt a).YawDeg / 360)
  rw [e]
  exact ⟨rfl, by linarith, by linarith⟩

/-- Two legacy `RotateYaw` calls with axis values `a` and `b` give the yaw of
one call with `a + b`, when none of the three values is in the dead zone. -/
theorem AIsoCameraPawn.RotateYaw_additive [FloorRing K] (s : AIsoCameraPawn K) (dt a b : K)
    (ha : FMath.IsNearlyZero a = false) (hb : FMath.IsNearlyZero b = false)
    (hab : FMath.IsNearlyZero (a + b) = false) :
    (s.RotateYaw dt a).RotateYaw dt b = s.RotateYaw dt (a + b) := by
  have key : (if FMath.Fmod
        ((if FMath.Fmod (s.YawDeg + a * s.RotateSpeedDegPerSec * dt) 360 < 0 then
            FMath.Fmod (s.YawDeg + a * s.RotateSpeedDegPerSec * dt) 360 + 360
          else FMath.Fmod (s.YawDeg + a * s.RotateSpeedDegPerSec * dt) 360) +
          b * s.RotateSpeedDegPerSec * dt) 360 < 0 then
        FMath.Fmod
          ((if FMath.Fmod (s.YawDeg + a * s.RotateSpeedDegPerSec * dt) 360 < 0 then
              FMath.Fmod (s.YawDeg + a * s.RotateSpeedDegPerSec * dt) 360 + 360
            else FMath.Fmod (s.YawDeg + a * s.RotateSpeedDegPerSec * dt) 360) +
            b * s.RotateSpeedDegPerSec * dt) 360 + 360
      else FMath.Fmod
          ((if FMath.Fmod (s.YawDeg + a * s.RotateSpeedDegPerSec * dt) 360 < 0 then
              FMath.Fmod (s.YawDeg + a * s.RotateSpeedDegPerSec * dt) 360 + 360
            else FMath.Fmod (s.YawDeg + a * s.RotateSpeedDegPerSec * dt) 360) +
            b * s.RotateSpeedDegPerSec * dt) 360) =
      (if FMath.Fmod (s.YawDeg + (a + b) * s.RotateSpeedDegPerSec * dt) 360 < 0 then
        FMath.Fmod (s.YawDeg + (a + b) * s.RotateSpeedDegPerSec * dt) 360 + 360
      else FMath.Fmod (s.YawDeg + (a + b) * s.RotateSpeedDegPerSec * dt) 360) := by
    rw [FMath.wrap360, FMath.wrap360, FMath.wrap360]
    congr 1
    have e1 : (360 * Int.fract ((s.YawDeg + a * s.RotateSpeedDegPerSec * dt) / 360) +
        b * s.RotateSpeedDegPerSec * dt) / 360 =
        (s.YawDeg + (a + b) * s.RotateSpeedDegPerSec * dt) / 360 -
          ((⌊(s.YawDeg + a * s.RotateSpeedDegPerSec * dt) / 360⌋ : ℤ) : K) := by
      rw [← Int.self_sub_floor]; ring
    rw [e1, Int.fract_sub_int]
  simp only [AIsoCameraPawn.RotateYaw, ha, hb, hab, Bool.false_eq_true, if_false, key]

/-- Two zooms need not commute: from the minimum radius 800 of the header
defaults, zooming in and then out ends at 1600, zooming out and then in ends
back at 800. -/
theorem HandleZoom_order_matters :
    ((({ AIsoCameraPawn.defaults ⟨0, 0, 0⟩ with OrbitRadius := 800 } :
      AIsoCameraPawn ℚ).HandleZoom 1).HandleZoom (-1)).OrbitRadius = 1600 ∧
    ((({ AIsoCameraPawn.defaults ⟨0, 0, 0⟩ with OrbitRadius := 800 } :
      AIsoCameraPawn ℚ).HandleZoom (-1)).HandleZoom 1).OrbitRadius = 800 := by
  have h1 : FMath.IsNearlyZero (1 : ℚ) = false := FMath.IsNearlyZero_one
  have h2 : FMath.IsNearlyZero (-1 : ℚ) = false := by
    rw [FMath.IsNearlyZero_neg]; exact FMath.IsNearlyZero_one
  have cfg : ∀ (t : AIsoCameraPawn ℚ) (a : ℚ),
      (t.HandleZoom a).OrbitRadiusMin = t.OrbitRadiusMin ∧
      (t.HandleZoom a).OrbitRadiusMax = t.OrbitRadiusMax ∧
      (t.HandleZoom a).ZoomSpeed = t.ZoomSpeed := by
    intro t a
    rw [AIsoCameraPawn.HandleZoom_frame]
    exact ⟨rfl, rfl, rfl⟩
  simp only [AIsoCameraPawn.HandleZoom_OrbitRadius, h1, h2, Bool.false_eq_true, if_false,
    FMath.Clamp_eq, (cfg _ _).1, (cfg _ _).2.1, (cfg _ _).2.2]
  norm_num [AIsoCameraPawn.defaults]

end Lemmas

/-! ## The claims -/

section Claims

variable {K : Type} [LinearOrderedField K]

/-- C1: when `OrbitRadiusMin ≤ OrbitRadiusMax`, whatever the authored
`OrbitRadius` is, in every state of a play session (after `BeginPlay` and
after any sequence of events, among them `HandleZoom` and the legacy
`ZoomCamera` with any axis value) the configured range is the authored one and
`OrbitRadiusMin ≤ OrbitRadius ≤ OrbitRadiusMax`; and every event that is not a
zoom (pan, rotate, legacy pan and rotate, tick with its transform update)
leaves `OrbitRadius` as it was. -/
theorem C1_orbit_radius_in_range [FloorRing K] (M : FPlatformMath K) (s0 : AIsoCameraPawn K)
    (hcfg : s0.OrbitRadiusMin ≤ s0.OrbitRadiusMax) :
    (∀ es : List (Event K),
      (play M s0 es).OrbitRadiusMin = s0.OrbitRadiusMin ∧
      (play M s0 es).OrbitRadiusMax = s0.OrbitRadiusMax ∧
      (play M s0 es).OrbitRadiusMin ≤ (play M s0 es).OrbitRadius ∧
      (play M s0 es).OrbitRadius ≤ (play M s0 es).OrbitRadiusMax) ∧
    (∀ (s : AIsoCameraPawn K) (e : Event K),
      (∀ a, e ≠ Event.IA_Zoom a) → (∀ a, e ≠ Event.LegacyZoomCamera a) →
      (step M s e).OrbitRadius = s.OrbitRadius) := by
  refine ⟨fun es => ?_, fun s e h1 h2 => ?_⟩
  · refine play_invariant M (fun s => s.OrbitRadiusMin = s0.OrbitRadiusMin ∧
      s.OrbitRadiusMax = s0.OrbitRadiusMax ∧ s.OrbitRadiusMin ≤ s.OrbitRadius ∧
      s.OrbitRadius ≤ s.OrbitRadiusMax) s0 ?_ ?_ es
    · obtain ⟨h1, h2, -, -, -, h6, -⟩ := BeginPlay_zoom_fields M s0
      rw [h1, h2, h6]
      exact ⟨rfl, rfl, FMath.le_Clamp _ _ _, FMath.Clamp_le _ hcfg⟩
    · rintro s e ⟨i1, i2, i3, i4⟩
      obtain ⟨h1, h2, -, -, -, h6⟩ := step_zoom_fields M s e
      rw [h1, h2]
      refine ⟨i1, i2, ?_⟩
      rcases h6 with ⟨h6, -⟩ | ⟨x, h6, -⟩
      · rw [h6]; exact ⟨i3, i4⟩
      · rw [h6]; exact ⟨FMath.le_Clamp _ _ _, FMath.Clamp_le _ (i1 ▸ i2 ▸ hcfg)⟩
  · cases e with
    | IA_Zoom a => exact absurd rfl (h1 a)
    | LegacyZoomCamera a => exact absurd rfl (h2 a)
    | IA_PanForward dt a =>
      cases h : FMath.IsNearlyZero a
      · simp only [step, AIsoCameraPawn.HandlePanForward, h, Bool.false_eq_true, if_false]
        rw [AIsoCameraPawn.AddActorWorldOffset_frame]
      · simp [step, AIsoCameraPawn.HandlePanForward, h]
    | IA_PanRight dt a =>
      cases h : FMath.IsNearlyZero a
      · simp only [step, AIsoCameraPawn.HandlePanRight, h, Bool.false_eq_true, if_false]
        rw [AIsoCameraPawn.AddActorWorldOffset_frame]
      · simp [step, AIsoCameraPawn.HandlePanRight, h]
    | LegacyPanForward dt a =>
      cases h : FMath.IsNearlyZero a
      · simp only [step, AIsoCameraPawn.PanForward, h, Bool.false_eq_true, if_false]
        rw [AIsoCameraPawn.AddActorWorldOffset_frame]
      · simp [step, AIsoCameraPawn.PanForward, h]
    | LegacyPanRight dt a =>
      cases h : FMath.IsNearlyZero a
      · simp only [step, AIsoCameraPawn.PanRight, h, Bool.false_eq_true, if_false]
        rw [AIsoCameraPawn.AddActorWorldOffset_frame]
      · simp [step, AIsoCameraPawn.PanRight, h]
    | IA_Rotate dt a =>
      cases h : FMath.IsNearlyZero a <;> simp [step, AIsoCameraPawn.HandleRotate, h]
    | LegacyRotateYaw dt a =>
      cases h : FMath.IsNearlyZero a <;> simp [step, AIsoCameraPawn.RotateYaw, h]
    | Tick dt =>
      simp only [step, AIsoCameraPawn.Tick]
      rw [AIsoCameraPawn.UpdateCameraTransform_frame]

/-- C1, witness: the header defaults with an authored radius of 9000, outside
`[800, 8000]`, then a zoom-out, a rotate and a tick. -/
theorem C1_orbit_radius_in_range_witness :
    let M : FPlatformMath ℝ :=
      ⟨fun d => Real.sin (d * Real.pi / 180), fun d => Real.cos (d * Real.pi / 180),
        fun x => (Real.sqrt x)⁻¹⟩
    let s0 : AIsoCameraPawn ℝ := { AIsoCameraPawn.defaults ⟨0, 0, 0⟩ with OrbitRadius := 9000 }
    let es : List (Event ℝ) := [Event.IA_Zoom (-1), Event.IA_Rotate (1 / 5) 1, Event.Tick (1 / 5)]
    s0.OrbitRadiusMin ≤ s0.OrbitRadiusMax ∧
    800 ≤ (play M s0 es).OrbitRadius ∧ (play M s0 es).OrbitRadius ≤ 8000 := by
  intro M s0 es
  have hcfg : s0.OrbitRadiusMin ≤ s0.OrbitRadiusMax := by
    norm_num [s0, AIsoCameraPawn.defaults]
  obtain ⟨h1, h2, h3, h4⟩ := (C1_orbit_radius_in_range M s0 hcfg).1 es
  rw [h1] at h3
  rw [h2] at h4
  exact ⟨hcfg, h3, h4⟩

/-- C2 (the code departs from the claim): from `YawDeg = 350`, the Rotate
action with axis `1`, `RotateSpeedDegPerSec = 90` and `dt = 0.2` runs
`HandleRotate`, which leaves `YawDeg = 368`, outside `[0, 360)`; the legacy
`RotateYaw` on the same input wraps to `8`. -/
theorem C2_HandleRotate_does_not_wrap (M : FPlatformMath ℚ) :
    let s : AIsoCameraPawn ℚ := { AIsoCameraPawn.defaults ⟨0, 0, 0⟩ with YawDeg := 350 }
    (step M s (Event.IA_Rotate (1 / 5) 1)).YawDeg = 368 ∧
    ¬ ((step M s (Event.IA_Rotate (1 / 5) 1)).YawDeg < 360) ∧
    (step M s (Event.LegacyRotateYaw (1 / 5) 1)).YawDeg = 8 := by
  intro s
  have hz : FMath.IsNearlyZero (1 : ℚ) = false := by
    simp only [FMath.IsNearlyZero, FMath.Abs_eq_abs, UE_SMALL_NUMBER]
    norm_num
  have h368 : (step M s (Event.IA_Rotate (1 / 5) 1)).YawDeg = 368 := by
    simp only [step, AIsoCameraPawn.HandleRotate, hz, s, AIsoCameraPawn.defaults]
    norm_num
  refine ⟨h368, by rw [h368]; norm_num, ?_⟩
  have ht : FMath.truncToInt ((368 : ℚ) / 360) = 1 := by
    unfold FMath.truncToInt
    rw [if_pos (by norm_num), Int.floor_eq_iff]
    norm_num
  have hf : FMath.Fmod (368 : ℚ) 360 = 8 := by
    unfold FMath.Fmod
    rw [if_neg (by simp only [FMath.Abs_eq_abs, UE_SMALL_NUMBER]; norm_num), ht]
    norm_num
  have hy : (350 : ℚ) + 1 * 90 * (1 / 5) = 368 := by norm_num
  simp only [step, AIsoCameraPawn.RotateYaw, hz, s, AIsoCameraPawn.defaults, hy, hf]
  norm_num

/-- C3: when the axis value is not nearly zero (`|a| > UE_SMALL_NUMBER`),
`HandleZoom` sets `OrbitRadius` to
`clamp(OrbitRadius - a * ZoomSpeed, OrbitRadiusMin, OrbitRadiusMax)` (no `dt`);
then, with `bScaleHeightWithZoom`, `Height` is
`HeightMin + clamp(α, 0, 1) * (HeightMax - HeightMin)` for
`α = (new radius - OrbitRadiusMin) / max(ε, OrbitRadiusMax - OrbitRadiusMin)`,
and without it `Height` is what it was.  Here `clamp(x, lo, hi)` is
`max(min(x, hi), lo)` and `ε` is `KINDA_SMALL_NUMBER`. -/
theorem C3_HandleZoom_effect (s : AIsoCameraPawn K) (a : K) (ha : UE_SMALL_NUMBER < |a|) :
    (s.HandleZoom a).OrbitRadius =
      max (min (s.OrbitRadius - a * s.ZoomSpeed) s.OrbitRadiusMax) s.OrbitRadiusMin ∧
    (s.bScaleHeightWithZoom = true →
      (s.HandleZoom a).Height = s.HeightMin +
        max (min (((s.HandleZoom a).OrbitRadius - s.OrbitRadiusMin) /
          max (1 / 10000) (s.OrbitRadiusMax - s.OrbitRadiusMin)) 1) 0 *
          (s.HeightMax - s.HeightMin)) ∧
    (s.bScaleHeightWithZoom = false → (s.HandleZoom a).Height = s.Height) := by
  have hz : FMath.IsNearlyZero a = false := by
    simp only [FMath.IsNearlyZero, FMath.Abs_eq_abs, decide_eq_false_iff_not, not_le]
    exact ha
  obtain ⟨h1, -, -, -, -, -, h7⟩ :=
    AIsoCameraPawn.zoom_body s (s.OrbitRadius - a * s.ZoomSpeed)
  simp only [AIsoCameraPawn.HandleZoom, hz, Bool.false_eq_true, if_false]
  rw [h1, h7]
  refine ⟨FMath.Clamp_eq _ _ _, fun hs => ?_, fun hs => ?_⟩
  · simp only [hs, if_true, FMath.Lerp, FMath.Clamp_eq, FMath.Max_eq_max, KINDA_SMALL_NUMBER]
  · simp [hs]

/-- C3, witness: radius 3000 in `[800, 8000]`, `ZoomSpeed = 800`, axis `-1`,
heights `[600, 2600]` (the header defaults) give radius 3800 and height
`4300 / 3`. -/
theorem C3_HandleZoom_effect_witness :
    (UE_SMALL_NUMBER : ℚ) < |(-1 : ℚ)| ∧
    ((AIsoCameraPawn.defaults ⟨0, 0, 0⟩ : AIsoCameraPawn ℚ).HandleZoom (-1)).OrbitRadius
      = 3800 ∧
    ((AIsoCameraPawn.defaults ⟨0, 0, 0⟩ : AIsoCameraPawn ℚ).HandleZoom (-1)).Height
      = 4300 / 3 := by
  have ha : (UE_SMALL_NUMBER : ℚ) < |(-1 : ℚ)| := by norm_num [UE_SMALL_NUMBER]
  obtain ⟨h1, h2, -⟩ := C3_HandleZoom_effect (AIsoCameraPawn.defaults ⟨0, 0, 0⟩) (-1 : ℚ) ha
  have h3 := h2 rfl
  rw [h1] at h3
  refine ⟨ha, ?_, ?_⟩
  · rw [h1]; norm_num [AIsoCameraPawn.defaults]
  · rw [h3]; norm_num [AIsoCameraPawn.defaults]

/-- C4: with `bScaleHeightWithZoom` set and `HeightMin ≤ HeightMax`, whatever
the authored `Height` is, in every state of a play session (after `BeginPlay`
and after any sequence of zoom, pan, rotate, legacy and tick events) the
height range is the authored one and `HeightMin ≤ Height ≤ HeightMax`. -/
theorem C4_height_in_range [FloorRing K] (M : FPlatformMath K) (s0 : AIsoCameraPawn K)
    (hscale : s0.bScaleHeightWithZoom = true) (hcfg : s0.HeightMin ≤ s0.HeightMax)
    (es : List (Event K)) :
    (play M s0 es).HeightMin = s0.HeightMin ∧ (play M s0 es).HeightMax = s0.HeightMax ∧
    (play M s0 es).HeightMin ≤ (play M s0 es).Height ∧
    (play M s0 es).Height ≤ (play M s0 es).HeightMax := by
  refine play_invariant M (fun s => s.bScaleHeightWithZoom = true ∧
    s.HeightMin = s0.HeightMin ∧ s.HeightMax = s0.HeightMax ∧ s.HeightMin ≤ s.Height ∧
    s.Height ≤ s.HeightMax) s0 ?_ ?_ es |>.2
  · obtain ⟨-, -, h3, h4, h5, -, h7⟩ := BeginPlay_zoom_fields M s0
    rw [h3, h4, h5, h7, hscale, if_pos rfl]
    exact ⟨rfl, rfl, rfl, scaled_height_mem _ _ _ _ _ hcfg⟩
  · rintro s e ⟨i0, i1, i2, i3, i4⟩
    obtain ⟨-, -, h3, h4, h5, h6⟩ := step_zoom_fields M s e
    rw [h3, h4, h5]
    refine ⟨i0, i1, i2, ?_⟩
    rcases h6 with ⟨-, h6⟩ | ⟨x, -, h6⟩
    · rw [h6]; exact ⟨i3, i4⟩
    · rw [h6, i0, if_pos rfl]
      exact scaled_height_mem _ _ _ _ _ (i1 ▸ i2 ▸ hcfg)

/-- C4, witness: the header defaults with an authored height of 5000, outside
`[600, 2600]`, then two zoom-ins, a pan and a tick. -/
theorem C4_height_in_range_witness :
    let M : FPlatformMath ℝ :=
      ⟨fun d => Real.sin (d * Real.pi / 180), fun d => Real.cos (d * Real.pi / 180),
        fun x => (Real.sqrt x)⁻¹⟩
    let s0 : AIsoCameraPawn ℝ := { AIsoCameraPawn.defaults ⟨0, 0, 0⟩ with Height := 5000 }
    let es : List (Event ℝ) :=
      [Event.IA_Zoom 1, Event.IA_Zoom 1, Event.IA_PanForward (1 / 60) 1, Event.Tick (1 / 60)]
    s0.bScaleHeightWithZoom = true ∧ s0.HeightMin ≤ s0.HeightMax ∧
    600 ≤ (play M s0 es).Height ∧ (play M s0 es).Height ≤ 2600 := by
  intro M s0 es
  have hcfg : s0.HeightMin ≤ s0.HeightMax := by norm_num [s0, AIsoCameraPawn.defaults]
  obtain ⟨h1, h2, h3, h4⟩ := C4_height_in_range M s0 rfl hcfg es
  rw [h1] at h3
  rw [h2] at h4
  exact ⟨rfl, hcfg, h3, h4⟩

/-- C5 (amended): on the normal path (`bUseDebugCamera` off, camera present)
the transform update writes the camera location
`F - forward * OrbitRadius`, where `F` is the focus point and
`forward = (cos p cos y, cos p sin y, sin p)` is a unit vector; hence the
Euclidean distance from the camera to `F` is `|OrbitRadius|`, which is
`OrbitRadius` whenever `OrbitRadius ≥ 0`. -/
theorem C5_camera_on_orbit (M : FPlatformMath ℝ) (hM : M.Lawful) (s : AIsoCameraPawn ℝ)
    (hcam : s.Camera.isSome = true) (hdbg : s.bUseDebugCamera = false) :
    ∃ c : UCameraComponent ℝ, (s.UpdateCameraTransform M).Camera = some c ∧
      c.WorldLocation = s.GetFocusPoint -
        (⟨M.CosDeg s.PitchDeg * M.CosDeg s.YawDeg, M.CosDeg s.PitchDeg * M.SinDeg s.YawDeg,
          M.SinDeg s.PitchDeg⟩ : FVector ℝ) * s.OrbitRadius ∧
      Real.sqrt (FVector.SizeSquared
        (⟨M.CosDeg s.PitchDeg * M.CosDeg s.YawDeg, M.CosDeg s.PitchDeg * M.SinDeg s.YawDeg,
          M.SinDeg s.PitchDeg⟩ : FVector ℝ)) = 1 ∧
      Real.sqrt (c.WorldLocation - s.GetFocusPoint).SizeSquared = |s.OrbitRadius| ∧
      (0 ≤ s.OrbitRadius →
        Real.sqrt (c.WorldLocation - s.GetFocusPoint).SizeSquared = s.OrbitRadius) := by
  have hu := FRotator.Vector_SizeSquared hM ⟨s.PitchDeg, s.YawDeg, 0⟩
  have hd : Real.sqrt ((s.GetFocusPoint -
      (FRotator.Vector M ⟨s.PitchDeg, s.YawDeg, 0⟩) * s.OrbitRadius) -
      s.GetFocusPoint).SizeSquared = |s.OrbitRadius| := by
    rw [FVector.sub_scale_sub, FVector.SizeSquared_scale, hu, one_mul, neg_mul_neg,
      ← sq, Real.sqrt_sq_eq_abs]
  refine ⟨_, AIsoCameraPawn.UpdateCameraTransform_normal M s hcam hdbg, rfl, ?_, hd, ?_⟩
  · have : FVector.SizeSquared (⟨M.CosDeg s.PitchDeg * M.CosDeg s.YawDeg,
        M.CosDeg s.PitchDeg * M.SinDeg s.YawDeg, M.SinDeg s.PitchDeg⟩ : FVector ℝ) = 1 := hu
    rw [this, Real.sqrt_one]
  · intro hr
    rw [hd, abs_of_nonneg hr]

/-- C5, witness: the header defaults right after play start; the camera is
3000 units from the focus. -/
theorem C5_camera_on_orbit_witness :
    let M : FPlatformMath ℝ :=
      ⟨fun d => Real.sin (d * Real.pi / 180), fun d => Real.cos (d * Real.pi / 180),
        fun x => (Real.sqrt x)⁻¹⟩
    let s0 : AIsoCameraPawn ℝ := AIsoCameraPawn.defaults ⟨0, 0, 0⟩
    let s : AIsoCameraPawn ℝ := play M s0 []
    M.Lawful ∧ s.Camera.isSome = true ∧ s.bUseDebugCamera = false ∧
    ∃ c : UCameraComponent ℝ, (s.UpdateCameraTransform M).Camera = some c ∧
      Real.sqrt (c.WorldLocation - s.GetFocusPoint).SizeSquared = 3000 := by
  intro M s0 s
  have hcam : s.Camera.isSome = true := play_camera_isSome M s0 rfl []
  have hdbg : s.bUseDebugCamera = false := BeginPlay_bUseDebugCamera M s0
  have hr : s.OrbitRadius = 3000 := by
    rw [show s.OrbitRadius = _ from (BeginPlay_zoom_fields M s0).2.2.2.2.2.1, FMath.Clamp_eq]
    norm_num [s0, AIsoCameraPawn.defaults]
  obtain ⟨c, h1, -, -, -, h5⟩ := C5_camera_on_orbit M real_FPlatformMath_Lawful s hcam hdbg
  rw [hr] at h5
  exact ⟨real_FPlatformMath_Lawful, hcam, hdbg, c, h1, h5 (by norm_num)⟩

/-- C5 (the claim as stated fails): with the authored range
`OrbitRadiusMin = -2 ≤ OrbitRadiusMax = -1` and `OrbitRadius = -1`, the state
right after play start has `bUseDebugCamera` off and `OrbitRadius = -1`, and
after the transform update the distance from the camera to the focus is not
`OrbitRadius` (a distance is never negative). -/
theorem C5_distance_counterexample :
    let M : FPlatformMath ℝ :=
      ⟨fun d => Real.sin (d * Real.pi / 180), fun d => Real.cos (d * Real.pi / 180),
        fun x => (Real.sqrt x)⁻¹⟩
    let s0 : AIsoCameraPawn ℝ :=
      { AIsoCameraPawn.defaults ⟨0, 0, 0⟩ with
        OrbitRadiusMin := -2, OrbitRadiusMax := -1, OrbitRadius := -1 }
    let s : AIsoCameraPawn ℝ := play M s0 []
    s0.OrbitRadiusMin ≤ s0.OrbitRadiusMax ∧ s.bUseDebugCamera = false ∧
    s.OrbitRadius = -1 ∧
    ∃ c : UCameraComponent ℝ, (s.UpdateCameraTransform M).Camera = some c ∧
      Real.sqrt (c.WorldLocation - s.GetFocusPoint).SizeSquared ≠ s.OrbitRadius := by
  intro M s0 s
  have hcam : s.Camera.isSome = true := play_camera_isSome M s0 rfl []
  have hdbg : s.bUseDebugCamera = false := BeginPlay_bUseDebugCamera M s0
  have hr : s.OrbitRadius = -1 := by
    rw [show s.OrbitRadius = _ from (BeginPlay_zoom_fields M s0).2.2.2.2.2.1, FMath.Clamp_eq]
    norm_num [s0, AIsoCameraPawn.defaults]
  refine ⟨by norm_num [s0, AIsoCameraPawn.defaults], hdbg, hr,
    _, AIsoCameraPawn.UpdateCameraTransform_normal M s hcam hdbg, fun h => ?_⟩
  have h0 := Real.sqrt_nonneg (((s.GetFocusPoint -
    (FRotator.Vector M ⟨s.PitchDeg, s.YawDeg, 0⟩) * s.OrbitRadius) -
    s.GetFocusPoint).SizeSquared)
  rw [h, hr] at h0
  norm_num at h0

/-- C6 (amended): on the normal path (`bUseDebugCamera` off, camera present)
the transform update writes the camera rotation `(PitchDeg, YawDeg, roll 0)`,
and the vector from the camera to the focus is `forward * OrbitRadius` for the
camera's forward unit vector; it is a positive multiple of `forward` exactly
when `OrbitRadius > 0`. -/
theorem C6_camera_looks_at_focus (M : FPlatformMath K) (hM : M.Lawful) (s : AIsoCameraPawn K)
    (hcam : s.Camera.isSome = true) (hdbg : s.bUseDebugCamera = false) :
    ∃ c : UCameraComponent K, (s.UpdateCameraTransform M).Camera = some c ∧
      c.WorldRotation = ⟨s.PitchDeg, s.YawDeg, 0⟩ ∧
      (c.WorldRotation.Vector M).SizeSquared = 1 ∧
      s.GetFocusPoint - c.WorldLocation = (c.WorldRotation.Vector M) * s.OrbitRadius ∧
      ((∃ k : K, 0 < k ∧ s.GetFocusPoint - c.WorldLocation = (c.WorldRotation.Vector M) * k) ↔
        0 < s.OrbitRadius) := by
  have hu := FRotator.Vector_SizeSquared hM ⟨s.PitchDeg, s.YawDeg, 0⟩
  refine ⟨_, AIsoCameraPawn.UpdateCameraTransform_normal M s hcam hdbg, rfl, hu,
    FVector.sub_sub_scale _ _ _, ?_⟩
  simp only [FVector.sub_sub_scale]
  exact FVector.pos_multiple_iff hu _

/-- C6, witness: the header defaults (radius 3000); the camera looks at the
focus. -/
theorem C6_camera_looks_at_focus_witness :
    let M : FPlatformMath ℝ :=
      ⟨fun d => Real.sin (d * Real.pi / 180), fun d => Real.cos (d * Real.pi / 180),
        fun x => (Real.sqrt x)⁻¹⟩
    let s : AIsoCameraPawn ℝ := AIsoCameraPawn.defaults ⟨0, 0, 0⟩
    M.Lawful ∧ s.Camera.isSome = true ∧ s.bUseDebugCamera = false ∧
    ∃ c : UCameraComponent ℝ, (s.UpdateCameraTransform M).Camera = some c ∧
      c.WorldRotation = ⟨-35, 45, 0⟩ ∧
      ∃ k : ℝ, 0 < k ∧ s.GetFocusPoint - c.WorldLocation = (c.WorldRotation.Vector M) * k := by
  intro M s
  obtain ⟨c, h1, h2, -, -, h5⟩ :=
    C6_camera_looks_at_focus M real_FPlatformMath_Lawful s rfl rfl
  exact ⟨real_FPlatformMath_Lawful, rfl, rfl, c, h1, h2,
    h5.mpr (by norm_num [s, AIsoCameraPawn.defaults])⟩

/-- C6 (the claim as stated fails): with the authored `OrbitRadiusMin = 0` and
`OrbitRadius = 0`, the state right after play start has `bUseDebugCamera` off
and `OrbitRadius = 0`; after the transform update the camera sits on the
focus, and the vector from the camera to the focus is no positive multiple of
the camera's forward vector. -/
theorem C6_looks_at_focus_counterexample :
    let M : FPlatformMath ℝ :=
      ⟨fun d => Real.sin (d * Real.pi / 180), fun d => Real.cos (d * Real.pi / 180),
        fun x => (Real.sqrt x)⁻¹⟩
    let s0 : AIsoCameraPawn ℝ :=
      { AIsoCameraPawn.defaults ⟨0, 0, 0⟩ with OrbitRadiusMin := 0, OrbitRadius := 0 }
    let s : AIsoCameraPawn ℝ := play M s0 []
    s0.OrbitRadiusMin ≤ s0.OrbitRadiusMax ∧ s.bUseDebugCamera = false ∧
    s.OrbitRadius = 0 ∧
    ∃ c : UCameraComponent ℝ, (s.UpdateCameraTransform M).Camera = some c ∧
      ¬ ∃ k : ℝ, 0 < k ∧
        s.GetFocusPoint - c.WorldLocation = (c.WorldRotation.Vector M) * k := by
  intro M s0 s
  have hcam : s.Camera.isSome = true := play_camera_isSome M s0 rfl []
  have hdbg : s.bUseDebugCamera = false := BeginPlay_bUseDebugCamera M s0
  have hr : s.OrbitRadius = 0 := by
    rw [show s.OrbitRadius = _ from (BeginPlay_zoom_fields M s0).2.2.2.2.2.1, FMath.Clamp_eq]
    norm_num [s0, AIsoCameraPawn.defaults]
  refine ⟨by norm_num [s0, AIsoCameraPawn.defaults], hdbg, hr,
    _, AIsoCameraPawn.UpdateCameraTransform_normal M s hcam hdbg, fun h => ?_⟩
  simp only [FVector.sub_sub_scale] at h
  have hu := FRotator.Vector_SizeSquared real_FPlatformMath_Lawful ⟨s.PitchDeg, s.YawDeg, 0⟩
  have := (FVector.pos_multiple_iff hu s.OrbitRadius).mp h
  rw [hr] at this
  exact lt_irrefl _ this

/-- C7: with `bUseDebugCamera` on (camera present), the transform update
writes `camera.location = DebugLocation`,
`camera.rotation = (DebugPitch, DebugYaw, roll 0)` and
`camera.fov = DebugFOV`; two states that agree on the debug fields, whatever
their yaw, pitch, radius, height, fixed FOV, follow target, follow offset and
location are, get the same camera. -/
theorem C7_debug_override (M M' : FPlatformMath K) (s t : AIsoCameraPawn K)
    (hs : s.bUseDebugCamera = true) (ht : t.bUseDebugCamera = true)
    (hcs : s.Camera.isSome = true) (hct : t.Camera.isSome = true)
    (hloc : t.DebugLocation = s.DebugLocation) (hpitch : t.DebugPitch = s.DebugPitch)
    (hyaw : t.DebugYaw = s.DebugYaw) (hfov : t.DebugFOV = s.DebugFOV) :
    (s.UpdateCameraTransform M).Camera =
      some ⟨s.DebugLocation, ⟨s.DebugPitch, s.DebugYaw, 0⟩, s.DebugFOV⟩ ∧
    (t.UpdateCameraTransform M').Camera = (s.UpdateCameraTransform M).Camera := by
  rw [AIsoCameraPawn.UpdateCameraTransform_debug M s hcs hs,
    AIsoCameraPawn.UpdateCameraTransform_debug M' t hct ht, hloc, hpitch, hyaw, hfov]
  exact ⟨rfl, rfl⟩

/-- C7, witness: the debug values of the header, `(-800, 0, 800)`, pitch -45,
yaw 45, FOV 60, on the default pawn and on a pawn zoomed, turned and moved
elsewhere. -/
theorem C7_debug_override_witness :
    let M : FPlatformMath ℝ :=
      ⟨fun d => Real.sin (d * Real.pi / 180), fun d => Real.cos (d * Real.pi / 180),
        fun x => (Real.sqrt x)⁻¹⟩
    let s : AIsoCameraPawn ℝ :=
      { AIsoCameraPawn.defaults ⟨0, 0, 0⟩ with bUseDebugCamera := true }
    let t : AIsoCameraPawn ℝ :=
      { AIsoCameraPawn.defaults ⟨500, -20, 7⟩ with
        bUseDebugCamera := true, YawDeg := 200, PitchDeg := -60, OrbitRadius := 1000,
        Height := 9, FixedFOV := 90, FollowOffset := ⟨1, 2, 3⟩,
        FollowTarget := some ⟨⟨100, 200, 0⟩, ⟨100, 200, 80⟩, ⟨50, 50, 80⟩⟩ }
    (s.UpdateCameraTransform M).Camera = some ⟨⟨-800, 0, 800⟩, ⟨-45, 45, 0⟩, 60⟩ ∧
    (t.UpdateCameraTransform M).Camera = some ⟨⟨-800, 0, 800⟩, ⟨-45, 45, 0⟩, 60⟩ := by
  intro M s t
  obtain ⟨h1, h2⟩ := C7_debug_override M M s t rfl rfl rfl rfl rfl rfl rfl rfl
  exact ⟨h1, h2.trans h1⟩

/-- C8: the focus point is, with a follow target and `bAutoCenterFollowTarget`,
`pivot + (0, 0, 2 * Extents.Z * FollowAimHeightAlpha) + FollowOffset`; with a
follow target and no auto-centre, `pivot + FollowOffset`; without a follow
target, the pawn's own location plus `FollowOffset`. -/
theorem C8_focus_point (s : AIsoCameraPawn K) :
    (∀ t : AActor K, s.FollowTarget = some t → s.bAutoCenterFollowTarget = true →
      s.GetFocusPoint = t.ActorLocation +
        (⟨0, 0, 2 * t.BoundsExtents.Z * s.FollowAimHeightAlpha⟩ : FVector K) +
        s.FollowOffset) ∧
    (∀ t : AActor K, s.FollowTarget = some t → s.bAutoCenterFollowTarget = false →
      s.GetFocusPoint = t.ActorLocation + s.FollowOffset) ∧
    (s.FollowTarget = none → s.GetFocusPoint = s.ActorLocation + s.FollowOffset) := by
  refine ⟨fun t ht ha => ?_, fun t ht ha => ?_, fun ht => ?_⟩
  · simp only [AIsoCameraPawn.GetFocusPoint, ht, ha, if_true]
    show FVector.add _ _ = FVector.add (FVector.add _ _) _
    simp [FVector.add]
  · simp [AIsoCameraPawn.GetFocusPoint, ht, ha]
  · simp [AIsoCameraPawn.GetFocusPoint, ht]

/-- C8, witness: target at `(100, 200, 0)` with half-extents `(50, 50, 80)`,
auto-centre on, alpha `0.5`, zero offset: the aim is `(100, 200, 80)`. -/
theorem C8_focus_point_witness :
    let t : AActor ℚ := ⟨⟨100, 200, 0⟩, ⟨100, 200, 80⟩, ⟨50, 50, 80⟩⟩
    let s : AIsoCameraPawn ℚ :=
      { AIsoCameraPawn.defaults ⟨0, 0, 0⟩ with
        FollowTarget := some t, FollowAimHeightAlpha := 1 / 2 }
    s.FollowTarget = some t ∧ s.bAutoCenterFollowTarget = true ∧
    s.GetFocusPoint = ⟨100, 200, 80⟩ := by
  intro t s
  refine ⟨rfl, rfl, ?_⟩
  rw [(C8_focus_point s).1 t rfl rfl]
  show FVector.add (FVector.add _ _) _ = _
  norm_num [FVector.add, FVector.ZeroVector, AIsoCameraPawn.defaults, s, t]

/-- C9 (the code departs from the claim): for a follow target whose pivot is
the centre of its bounds (pivot and bounds origin at height 100, half-height
80), auto-centre on and zero offset, alpha `0` aims at height 100 while the
bottom of the bounds is at 20, alpha `1` aims at 260 while the top is at 180,
and alpha `0.5` aims at 180 while the middle is at 100. -/
theorem C9_aim_measured_from_pivot :
    let t : AActor ℚ := ⟨⟨0, 0, 100⟩, ⟨0, 0, 100⟩, ⟨50, 50, 80⟩⟩
    let s : ℚ → AIsoCameraPawn ℚ := fun alpha =>
      { AIsoCameraPawn.defaults ⟨0, 0, 0⟩ with
        FollowTarget := some t, FollowAimHeightAlpha := alpha }
    ((s 0).GetFocusPoint.Z = 100 ∧ t.BoundsOrigin.Z - t.BoundsExtents.Z = 20) ∧
    ((s 1).GetFocusPoint.Z = 260 ∧ t.BoundsOrigin.Z + t.BoundsExtents.Z = 180) ∧
    ((s (1 / 2)).GetFocusPoint.Z = 180 ∧ t.BoundsOrigin.Z = 100) := by
  intro t s
  have e : ∀ alpha : ℚ, (s alpha).GetFocusPoint.Z = 100 + 2 * 80 * alpha + 0 := by
    intro alpha
    simp only [s, t, AIsoCameraPawn.GetFocusPoint, AIsoCameraPawn.defaults, if_true]
    rfl
  rw [e, e, e]
  norm_num [t]

/-- Where the code meets the header comment of `FollowAimHeightAlpha`: for a
follow target whose pivot is at the bottom of its bounds, auto-centre on and
zero offset, alpha `0`, `1 / 2` and `1` aim at the bottom, the middle and the
top of the bounds. -/
theorem GetFocusPoint_of_pivot_at_bottom (s : AIsoCameraPawn K) (t : AActor K)
    (ht : s.FollowTarget = some t) (ha : s.bAutoCenterFollowTarget = true)
    (ho : s.FollowOffset = FVector.ZeroVector)
    (hp : t.ActorLocation.Z = t.BoundsOrigin.Z - t.BoundsExtents.Z) :
    (s.FollowAimHeightAlpha = 0 → s.GetFocusPoint.Z = t.BoundsOrigin.Z - t.BoundsExtents.Z) ∧
    (s.FollowAimHeightAlpha = 1 / 2 → s.GetFocusPoint.Z = t.BoundsOrigin.Z) ∧
    (s.FollowAimHeightAlpha = 1 → s.GetFocusPoint.Z = t.BoundsOrigin.Z + t.BoundsExtents.Z) := by
  have e : s.GetFocusPoint.Z =
      t.ActorLocation.Z + 2 * t.BoundsExtents.Z * s.FollowAimHeightAlpha + 0 := by
    simp only [AIsoCameraPawn.GetFocusPoint, ht, ha, ho, if_true]
    rfl
  rw [e, hp]
  refine ⟨fun h => ?_, fun h => ?_, fun h => ?_⟩ <;> rw [h] <;> ring

/-- C10: with `OrbitRadiusMin ≤ OrbitRadiusMax` and `ZoomSpeed ≥ 0`, from
`OrbitRadius = OrbitRadiusMin` any number of zoom-in events (axis `a > 0`)
leaves `OrbitRadius = OrbitRadiusMin`, and from `OrbitRadius = OrbitRadiusMax`
any number of zoom-out events (axis `a < 0`) leaves
`OrbitRadius = OrbitRadiusMax`. -/
theorem C10_zoom_idempotent_at_clamp (s : AIsoCameraPawn K)
    (hcfg : s.OrbitRadiusMin ≤ s.OrbitRadiusMax) (hz : 0 ≤ s.ZoomSpeed) :
    (s.OrbitRadius = s.OrbitRadiusMin → ∀ axes : List K, (∀ a ∈ axes, 0 < a) →
      (axes.foldl (fun st a => st.HandleZoom a) s).OrbitRadius = s.OrbitRadiusMin) ∧
    (s.OrbitRadius = s.OrbitRadiusMax → ∀ axes : List K, (∀ a ∈ axes, a < 0) →
      (axes.foldl (fun st a => st.HandleZoom a) s).OrbitRadius = s.OrbitRadiusMax) := by
  have cfg : ∀ (t : AIsoCameraPawn K) (a : K),
      (t.HandleZoom a).OrbitRadiusMin = t.OrbitRadiusMin ∧
      (t.HandleZoom a).OrbitRadiusMax = t.OrbitRadiusMax ∧
      (t.HandleZoom a).ZoomSpeed = t.ZoomSpeed := by
    intro t a
    rw [AIsoCameraPawn.HandleZoom_frame]
    exact ⟨rfl, rfl, rfl⟩
  constructor
  · intro hr axes
    suffices H : ∀ (axes : List K) (t : AIsoCameraPawn K),
        t.OrbitRadiusMin = s.OrbitRadiusMin → t.OrbitRadiusMax = s.OrbitRadiusMax →
        t.ZoomSpeed = s.ZoomSpeed → t.OrbitRadius = s.OrbitRadiusMin →
        (∀ a ∈ axes, 0 < a) →
        (axes.foldl (fun st a => st.HandleZoom a) t).OrbitRadius = s.OrbitRadiusMin from
      H axes s rfl rfl rfl hr
    intro axes
    induction axes with
    | nil => intro t _ _ _ h4 _; exact h4
    | cons a axes ih =>
      intro t h1 h2 h3 h4 hpos
      obtain ⟨c1, c2, c3⟩ := cfg t a
      refine ih (t.HandleZoom a) (c1.trans h1) (c2.trans h2) (c3.trans h3) ?_
        (fun b hb => hpos b (List.mem_cons_of_mem _ hb))
      rw [AIsoCameraPawn.HandleZoom_OrbitRadius]
      split_ifs
      · exact h4
      · rw [h1, h2, h3, h4]
        have ha : 0 < a := hpos a (List.mem_cons_self _ _)
        exact FMath.Clamp_of_le_min _ (sub_le_self _ (mul_nonneg ha.le hz))
  · intro hr axes
    suffices H : ∀ (axes : List K) (t : AIsoCameraPawn K),
        t.OrbitRadiusMin = s.OrbitRadiusMin → t.OrbitRadiusMax = s.OrbitRadiusMax →
        t.ZoomSpeed = s.ZoomSpeed → t.OrbitRadius = s.OrbitRadiusMax →
        (∀ a ∈ axes, a < 0) →
        (axes.foldl (fun st a => st.HandleZoom a) t).OrbitRadius = s.OrbitRadiusMax from
      H axes s rfl rfl rfl hr
    intro axes
    induction axes with
    | nil => intro t _ _ _ h4 _; exact h4
    | cons a axes ih =>
      intro t h1 h2 h3 h4 hneg
      obtain ⟨c1, c2, c3⟩ := cfg t a
      refine ih (t.HandleZoom a) (c1.trans h1) (c2.trans h2) (c3.trans h3) ?_
        (fun b hb => hneg b (List.mem_cons_of_mem _ hb))
      rw [AIsoCameraPawn.HandleZoom_OrbitRadius]
      split_ifs
      · exact h4
      · rw [h1, h2, h3, h4]
        have ha : a < 0 := hneg a (List.mem_cons_self _ _)
        refine FMath.Clamp_of_max_le hcfg ?_
        linarith [mul_nonneg (neg_nonneg.mpr ha.le) hz]

/-- C10, witness: the header defaults at the minimum radius 800, zoomed in
three more times, and at the maximum radius 8000, zoomed out twice more. -/
theorem C10_zoom_idempotent_at_clamp_witness :
    let lo : AIsoCameraPawn ℚ := { AIsoCameraPawn.defaults ⟨0, 0, 0⟩ with OrbitRadius := 800 }
    let hi : AIsoCameraPawn ℚ := { AIsoCameraPawn.defaults ⟨0, 0, 0⟩ with OrbitRadius := 8000 }
    (lo.OrbitRadiusMin ≤ lo.OrbitRadiusMax ∧ 0 ≤ lo.ZoomSpeed ∧
      lo.OrbitRadius = lo.OrbitRadiusMin ∧ (∀ a ∈ [(1 : ℚ), 1, 2], 0 < a) ∧
      (([(1 : ℚ), 1, 2]).foldl (fun st a => st.HandleZoom a) lo).OrbitRadius = 800) ∧
    (hi.OrbitRadius = hi.OrbitRadiusMax ∧ (∀ a ∈ [(-1 : ℚ), -3], a < 0) ∧
      (([(-1 : ℚ), -3]).foldl (fun st a => st.HandleZoom a) hi).OrbitRadius = 8000) := by
  intro lo hi
  have hcfg : lo.OrbitRadiusMin ≤ lo.OrbitRadiusMax := by
    norm_num [lo, AIsoCameraPawn.defaults]
  have hz : 0 ≤ lo.ZoomSpeed := by norm_num [lo, AIsoCameraPawn.defaults]
  have hp : ∀ a ∈ [(1 : ℚ), 1, 2], 0 < a := by
    intro a ha; simp at ha; rcases ha with rfl | rfl <;> norm_num
  have hn : ∀ a ∈ [(-1 : ℚ), -3], a < 0 := by
    intro a ha; simp at ha; rcases ha with rfl | rfl <;> norm_num
  exact ⟨⟨hcfg, hz, rfl, hp, (C10_zoom_idempotent_at_clamp lo hcfg hz).1 rfl _ hp⟩,
    rfl, hn, (C10_zoom_idempotent_at_clamp hi hcfg hz).2 rfl _ hn⟩

/-- C11: with `bScaleHeightWithZoom` on and `HeightMin < HeightMax`, the
height the height-scaling law assigns is a non-decreasing function of
`OrbitRadius`: for a fixed configuration and radii `r1 ≤ r2`, the height
computed from `r1` is at most the height computed from `r2`. -/
theorem C11_height_monotone_in_radius (s : AIsoCameraPawn K) (r1 r2 : K)
    (hscale : s.bScaleHeightWithZoom = true) (hcfg : s.HeightMin < s.HeightMax)
    (hr : r1 ≤ r2) :
    (AIsoCameraPawn.ApplyHeightScalingFromRadius { s with OrbitRadius := r1 }).Height ≤
      (AIsoCameraPawn.ApplyHeightScalingFromRadius { s with OrbitRadius := r2 }).Height := by
  simp only [AIsoCameraPawn.ApplyHeightScalingFromRadius, hscale, Bool.not_true,
    Bool.false_eq_true, if_false, FMath.Lerp]
  have hd := FMath.Max_KINDA_SMALL_NUMBER_pos (s.OrbitRadiusMax - s.OrbitRadiusMin)
  have hα : (r1 - s.OrbitRadiusMin) / FMath.Max KINDA_SMALL_NUMBER
        (s.OrbitRadiusMax - s.OrbitRadiusMin) ≤
      (r2 - s.OrbitRadiusMin) / FMath.Max KINDA_SMALL_NUMBER
        (s.OrbitRadiusMax - s.OrbitRadiusMin) :=
    (div_le_div_iff_of_pos_right hd).mpr (sub_le_sub_right hr _)
  have hc := FMath.Clamp_mono hα 0 1
  have hh : 0 ≤ s.HeightMax - s.HeightMin := (sub_pos.mpr hcfg).le
  exact add_le_add_left (mul_le_mul_of_nonneg_right hc hh) _

/-- C11, witness: the header defaults at radii 1000 and 5000. -/
theorem C11_height_monotone_in_radius_witness :
    let s : AIsoCameraPawn ℚ := AIsoCameraPawn.defaults ⟨0, 0, 0⟩
    s.bScaleHeightWithZoom = true ∧ s.HeightMin < s.HeightMax ∧ (1000 : ℚ) ≤ 5000 ∧
    (AIsoCameraPawn.ApplyHeightScalingFromRadius { s with OrbitRadius := 1000 }).Height ≤
      (AIsoCameraPawn.ApplyHeightScalingFromRadius { s with OrbitRadius := 5000 }).Height := by
  intro s
  have h1 : s.HeightMin < s.HeightMax := by norm_num [s, AIsoCameraPawn.defaults]
  have h2 : (1000 : ℚ) ≤ 5000 := by norm_num
  exact ⟨rfl, h1, h2, C11_height_monotone_in_radius s 1000 5000 rfl h1 h2⟩

/-- C12 (amended): write `app x` for the axis value the rotate handler applies,
`0` when `x` is nearly zero (`|x| ≤ UE_SMALL_NUMBER`) and `x` otherwise.  For
every state, frame time and axis values `a` and `b` with
`app a + app b = app (a + b)`, `HandleRotate` with `a` and then with `b` gives
the same state as `HandleRotate` once with `a + b`.  This covers `a`, `b` and
`a + b` all outside the dead zone, and all three inside it (then nothing
changes at all).  When `RotateSpeedDegPerSec * dt ≠ 0` the condition is also
necessary. -/
theorem C12_yaw_additive (s : AIsoCameraPawn K) (dt a b : K) :
    ((if FMath.IsNearlyZero a then 0 else a) + (if FMath.IsNearlyZero b then 0 else b) =
        (if FMath.IsNearlyZero (a + b) then 0 else a + b) →
      (s.HandleRotate dt a).HandleRotate dt b = s.HandleRotate dt (a + b)) ∧
    (FMath.IsNearlyZero a = false → FMath.IsNearlyZero b = false →
      FMath.IsNearlyZero (a + b) = false →
      (s.HandleRotate dt a).HandleRotate dt b = s.HandleRotate dt (a + b)) ∧
    (FMath.IsNearlyZero a = true → FMath.IsNearlyZero b = true →
      FMath.IsNearlyZero (a + b) = true →
      (s.HandleRotate dt a).HandleRotate dt b = s.HandleRotate dt (a + b) ∧
      s.HandleRotate dt (a + b) = s) ∧
    (s.RotateSpeedDegPerSec * dt ≠ 0 →
      (s.HandleRotate dt a).HandleRotate dt b = s.HandleRotate dt (a + b) →
      (if FMath.IsNearlyZero a then 0 else a) + (if FMath.IsNearlyZero b then 0 else b) =
        (if FMath.IsNearlyZero (a + b) then 0 else a + b)) := by
  have main : (if FMath.IsNearlyZero a then 0 else a) + (if FMath.IsNearlyZero b then 0 else b) =
        (if FMath.IsNearlyZero (a + b) then 0 else a + b) →
      (s.HandleRotate dt a).HandleRotate dt b = s.HandleRotate dt (a + b) := by
    intro h
    rw [AIsoCameraPawn.HandleRotate_eq, AIsoCameraPawn.HandleRotate_eq,
      AIsoCameraPawn.HandleRotate_eq, ← h]
    have : s.YawDeg + (if FMath.IsNearlyZero a then 0 else a) * s.RotateSpeedDegPerSec * dt +
        (if FMath.IsNearlyZero b then 0 else b) * s.RotateSpeedDegPerSec * dt =
        s.YawDeg + ((if FMath.IsNearlyZero a then 0 else a) +
          (if FMath.IsNearlyZero b then 0 else b)) * s.RotateSpeedDegPerSec * dt := by ring
    simp only [this]
  refine ⟨main, fun ha hb hab => ?_, fun ha hb hab => ?_, fun hk h => ?_⟩
  · apply main
    simp only [ha, hb, hab, Bool.false_eq_true, if_false]
  · refine ⟨?_, ?_⟩
    · apply main
      simp only [ha, hb, hab, if_true, add_zero]
    · simp only [AIsoCameraPawn.HandleRotate, hab, if_true]
  · have hy := congrArg AIsoCameraPawn.YawDeg h
    rw [AIsoCameraPawn.HandleRotate_eq, AIsoCameraPawn.HandleRotate_eq,
      AIsoCameraPawn.HandleRotate_eq] at hy
    simp only at hy
    have e : ((if FMath.IsNearlyZero a then 0 else a) + (if FMath.IsNearlyZero b then 0 else b) -
        (if FMath.IsNearlyZero (a + b) then 0 else a + b)) * (s.RotateSpeedDegPerSec * dt) = 0 := by
      linear_combination hy
    rcases mul_eq_zero.mp e with h0 | h0
    · exact sub_eq_zero.mp h0
    · exact absurd h0 hk

/-- C12, witness: the header defaults with frame time `0.2`.  Axis values `1`
and `2` (all outside the dead zone) give yaw `45 + 18 + 36 = 99` either way;
axis values `1e-9` and `2e-9` (all inside the dead zone) leave the state as it
was either way. -/
theorem C12_yaw_additive_witness :
    let s : AIsoCameraPawn ℚ := AIsoCameraPawn.defaults ⟨0, 0, 0⟩
    let c : ℚ := 1 / 1000000000
    (FMath.IsNearlyZero (1 : ℚ) = false ∧ FMath.IsNearlyZero (2 : ℚ) = false ∧
      FMath.IsNearlyZero ((1 : ℚ) + 2) = false ∧
      (s.HandleRotate (1 / 5) 1).HandleRotate (1 / 5) 2 = s.HandleRotate (1 / 5) (1 + 2) ∧
      (s.HandleRotate (1 / 5) (1 + 2)).YawDeg = 99) ∧
    (FMath.IsNearlyZero c = true ∧ FMath.IsNearlyZero (2 * c) = true ∧
      FMath.IsNearlyZero (c + 2 * c) = true ∧
      (s.HandleRotate (1 / 5) c).HandleRotate (1 / 5) (2 * c) =
        s.HandleRotate (1 / 5) (c + 2 * c) ∧
      s.HandleRotate (1 / 5) (c + 2 * c) = s) := by
  intro s c
  have out : ∀ x : ℚ, 1 ≤ x → FMath.IsNearlyZero x = false := by
    intro x hx
    rw [FMath.IsNearlyZero_eq_false_iff, abs_of_pos (by linarith)]
    norm_num [UE_SMALL_NUMBER]; linarith
  have ins : ∀ x : ℚ, 0 ≤ x → x ≤ 3 / 1000000000 → FMath.IsNearlyZero x = true := by
    intro x h0 h1
    simp only [FMath.IsNearlyZero, FMath.Abs_eq_abs, UE_SMALL_NUMBER, decide_eq_true_eq]
    rw [abs_of_nonneg h0]; linarith
  have h1 := out 1 (by norm_num)
  have h2 := out 2 (by norm_num)
  have h3 := out (1 + 2) (by norm_num)
  have k1 := ins c (by norm_num [c]) (by norm_num [c])
  have k2 := ins (2 * c) (by norm_num [c]) (by norm_num [c])
  have k3 := ins (c + 2 * c) (by norm_num [c]) (by norm_num [c])
  refine ⟨⟨h1, h2, h3, (C12_yaw_additive s (1 / 5) 1 2).2.1 h1 h2 h3, ?_⟩,
    k1, k2, k3, (C12_yaw_additive s (1 / 5) c (2 * c)).2.2.1 k1 k2 k3⟩
  rw [AIsoCameraPawn.HandleRotate_eq, h3]
  norm_num [s, AIsoCameraPawn.defaults]

/-- C12 (the claim as stated fails): from `YawDeg = 0` with
`RotateSpeedDegPerSec = 90` and frame time `1 / 64`, two rotate actions with
axis value `2⁻²⁷ ≈ 7.45e-9` each fall in the dead zone and leave `YawDeg = 0`,
while one rotate action with their sum `2⁻²⁶ ≈ 1.49e-8` is applied and gives
`YawDeg = 90 · 2⁻³² ≈ 2.1e-8`.  Every number involved is a binary fraction,
so the same values come out in single-precision arithmetic. -/
theorem C12_yaw_additive_counterexample :
    let s : AIsoCameraPawn ℚ := { AIsoCameraPawn.defaults ⟨0, 0, 0⟩ with YawDeg := 0 }
    let a : ℚ := 1 / 134217728
    let dt : ℚ := 1 / 64
    FMath.IsNearlyZero a = true ∧ FMath.IsNearlyZero (a + a) = false ∧
    ((s.HandleRotate dt a).HandleRotate dt a).YawDeg = 0 ∧
    (s.HandleRotate dt (a + a)).YawDeg = 90 / 4294967296 ∧
    ((s.HandleRotate dt a).HandleRotate dt a).YawDeg ≠ (s.HandleRotate dt (a + a)).YawDeg := by
  intro s a dt
  have ha : FMath.IsNearlyZero a = true := by
    simp only [FMath.IsNearlyZero, FMath.Abs_eq_abs, UE_SMALL_NUMBER, a, decide_eq_true_eq]
    rw [abs_of_pos (by norm_num)]; norm_num
  have haa : FMath.IsNearlyZero (a + a) = false := by
    rw [FMath.IsNearlyZero_eq_false_iff]
    simp only [UE_SMALL_NUMBER, a]
    rw [abs_of_pos (by norm_num)]; norm_num
  have h1 : ((s.HandleRotate dt a).HandleRotate dt a).YawDeg = 0 := by
    simp only [AIsoCameraPawn.HandleRotate, ha, if_true]
  have h2 : (s.HandleRotate dt (a + a)).YawDeg = 90 / 4294967296 := by
    simp only [AIsoCameraPawn.HandleRotate, haa, Bool.false_eq_true, if_false]
    norm_num [s, a, dt, AIsoCameraPawn.defaults]
  refine ⟨ha, haa, h1, h2, ?_⟩
  rw [h1, h2]; norm_num

/-- C13: without collision, for every pawn location, `YawDeg`, `PanSpeed`, frame
time and axis value `a`, a pan-forward with `a` followed by a pan-forward with
`-a` in the same frame time leaves the yaw untouched in between and returns
the pawn to its location (indeed to the state it was in); the same holds for
pan-right. -/
theorem C13_pan_locality (M : FPlatformMath K) (s : AIsoCameraPawn K) (dt a : K) :
    (s.HandlePanForward M dt a).YawDeg = s.YawDeg ∧
    ((s.HandlePanForward M dt a).HandlePanForward M dt (-a)).ActorLocation = s.ActorLocation ∧
    (s.HandlePanForward M dt a).HandlePanForward M dt (-a) = s ∧
    (s.HandlePanRight M dt a).YawDeg = s.YawDeg ∧
    ((s.HandlePanRight M dt a).HandlePanRight M dt (-a)).ActorLocation = s.ActorLocation ∧
    (s.HandlePanRight M dt a).HandlePanRight M dt (-a) = s := by
  have hf : (s.HandlePanForward M dt a).YawDeg = s.YawDeg := by
    cases h : FMath.IsNearlyZero a <;>
      simp [AIsoCameraPawn.HandlePanForward, AIsoCameraPawn.AddActorWorldOffset, h]
  have hr : (s.HandlePanRight M dt a).YawDeg = s.YawDeg := by
    cases h : FMath.IsNearlyZero a <;>
      simp [AIsoCameraPawn.HandlePanRight, AIsoCameraPawn.AddActorWorldOffset, h]
  have ef : (s.HandlePanForward M dt a).HandlePanForward M dt (-a) = s := by
    cases h : FMath.IsNearlyZero a
    · have h' : FMath.IsNearlyZero (-a) = false := by rw [FMath.IsNearlyZero_neg, h]
      simp only [AIsoCameraPawn.HandlePanForward, h, h', Bool.false_eq_true, if_false]
      exact AIsoCameraPawn.AddActorWorldOffset_cancel _ _ _
        (fun l => FVector.add_scale_neg l _ a _ dt)
    · have h' : FMath.IsNearlyZero (-a) = true := by rw [FMath.IsNearlyZero_neg, h]
      simp only [AIsoCameraPawn.HandlePanForward, h, h', if_true]
  have er : (s.HandlePanRight M dt a).HandlePanRight M dt (-a) = s := by
    cases h : FMath.IsNearlyZero a
    · have h' : FMath.IsNearlyZero (-a) = false := by rw [FMath.IsNearlyZero_neg, h]
      simp only [AIsoCameraPawn.HandlePanRight, h, h', Bool.false_eq_true, if_false]
      exact AIsoCameraPawn.AddActorWorldOffset_cancel _ _ _
        (fun l => FVector.add_scale_neg l _ a _ dt)
    · have h' : FMath.IsNearlyZero (-a) = true := by rw [FMath.IsNearlyZero_neg, h]
      simp only [AIsoCameraPawn.HandlePanRight, h, h', if_true]
  exact ⟨hf, by rw [ef], ef, hr, by rw [er], er⟩

/-- C14 (amended): for every `YawDeg`, with `forward = (cos yaw, sin yaw, 0)`
and `right = (-sin yaw, cos yaw, 0)`: when the axis value `a` is outside the
dead zone (`|a| > UE_SMALL_NUMBER`) pan-forward moves the pawn by
`forward * a * PanSpeed * dt` and pan-right by `right * a * PanSpeed * dt`;
when `a` is inside the dead zone neither moves it; both directions are unit
vectors with zero Z component and `right` is orthogonal to `forward`. -/
theorem C14_pan_displacement (M : FPlatformMath K) (hM : M.Lawful) (s : AIsoCameraPawn K)
    (dt a : K) :
    (UE_SMALL_NUMBER < |a| →
      (s.HandlePanForward M dt a).ActorLocation = s.ActorLocation +
        (⟨M.CosDeg s.YawDeg, M.SinDeg s.YawDeg, 0⟩ : FVector K) * a * s.PanSpeed * dt ∧
      (s.HandlePanRight M dt a).ActorLocation = s.ActorLocation +
        (⟨-M.SinDeg s.YawDeg, M.CosDeg s.YawDeg, 0⟩ : FVector K) * a * s.PanSpeed * dt) ∧
    (|a| ≤ UE_SMALL_NUMBER →
      (s.HandlePanForward M dt a).ActorLocation = s.ActorLocation ∧
      (s.HandlePanRight M dt a).ActorLocation = s.ActorLocation) ∧
    FVector.SizeSquared (⟨M.CosDeg s.YawDeg, M.SinDeg s.YawDeg, 0⟩ : FVector K) = 1 ∧
    FVector.SizeSquared (⟨-M.SinDeg s.YawDeg, M.CosDeg s.YawDeg, 0⟩ : FVector K) = 1 ∧
    FVector.dot (⟨M.CosDeg s.YawDeg, M.SinDeg s.YawDeg, 0⟩ : FVector K)
      ⟨-M.SinDeg s.YawDeg, M.CosDeg s.YawDeg, 0⟩ = 0 := by
  have hp := hM.sq_add_sq s.YawDeg
  refine ⟨fun ha => ?_, fun ha => ?_, ?_, ?_, ?_⟩
  · have hz := (FMath.IsNearlyZero_eq_false_iff a).mpr ha
    simp only [AIsoCameraPawn.HandlePanForward, AIsoCameraPawn.HandlePanRight, hz,
      Bool.false_eq_true, if_false, FRotator.Vector_yawOnly hM,
      FRotationMatrix.GetUnitAxisY_yawOnly hM]
    exact ⟨rfl, rfl⟩
  · have hz : FMath.IsNearlyZero a = true := by
      simp only [FMath.IsNearlyZero, FMath.Abs_eq_abs, decide_eq_true_eq]
      exact ha
    simp only [AIsoCameraPawn.HandlePanForward, AIsoCameraPawn.HandlePanRight, hz, if_true,
      and_self]
  · simp only [FVector.SizeSquared]; linarith
  · simp only [FVector.SizeSquared]; linarith
  · simp only [FVector.dot]; ring

/-- C14, witness: over the reals, with `PanSpeed = 2000`, frame time `0.5` and
axis value `1`, pan-right at yaw `0` and pan-forward at yaw `90` both move the
pawn from the origin to `(0, 1000, 0)`. -/
theorem C14_pan_displacement_witness :
    let M : FPlatformMath ℝ :=
      ⟨fun d => Real.sin (d * Real.pi / 180), fun d => Real.cos (d * Real.pi / 180),
        fun x => (Real.sqrt x)⁻¹⟩
    let s0 : AIsoCameraPawn ℝ := { AIsoCameraPawn.defaults ⟨0, 0, 0⟩ with YawDeg := 0 }
    let s90 : AIsoCameraPawn ℝ := { AIsoCameraPawn.defaults ⟨0, 0, 0⟩ with YawDeg := 90 }
    M.Lawful ∧ (UE_SMALL_NUMBER : ℝ) < |(1 : ℝ)| ∧
    (s0.HandlePanRight M (1 / 2) 1).ActorLocation = ⟨0, 1000, 0⟩ ∧
    (s90.HandlePanForward M (1 / 2) 1).ActorLocation = ⟨0, 1000, 0⟩ := by
  intro M s0 s90
  have h1 : (UE_SMALL_NUMBER : ℝ) < |(1 : ℝ)| := by norm_num [UE_SMALL_NUMBER]
  have hc : Real.cos (90 * Real.pi / 180) = 0 := by
    rw [show (90 : ℝ) * Real.pi / 180 = Real.pi / 2 by ring]; exact Real.cos_pi_div_two
  have hs : Real.sin (90 * Real.pi / 180) = 1 := by
    rw [show (90 : ℝ) * Real.pi / 180 = Real.pi / 2 by ring]; exact Real.sin_pi_div_two
  refine ⟨real_FPlatformMath_Lawful, h1, ?_, ?_⟩
  · rw [((C14_pan_displacement M real_FPlatformMath_Lawful s0 (1 / 2) 1).1 h1).2]
    simp only [FVector.add_def, FVector.mul_def, s0, M, AIsoCameraPawn.defaults]
    ext <;> norm_num
  · rw [((C14_pan_displacement M real_FPlatformMath_Lawful s90 (1 / 2) 1).1 h1).1]
    simp only [FVector.add_def, FVector.mul_def, s90, M, AIsoCameraPawn.defaults, hc, hs]
    ext <;> norm_num

/-- C14 (the claim as stated fails): over the reals, at yaw `0` with
`PanSpeed = 2000` and frame time `0.5`, the axis value `5e-9` lies in the dead
zone: pan-forward leaves the pawn at the origin, not at
`forward * a * PanSpeed * dt = (5e-6, 0, 0)`. -/
theorem C14_pan_displacement_counterexample :
    let M : FPlatformMath ℝ :=
      ⟨fun d => Real.sin (d * Real.pi / 180), fun d => Real.cos (d * Real.pi / 180),
        fun x => (Real.sqrt x)⁻¹⟩
    let s : AIsoCameraPawn ℝ := { AIsoCameraPawn.defaults ⟨0, 0, 0⟩ with YawDeg := 0 }
    let a : ℝ := 5 / 1000000000
    (s.HandlePanForward M (1 / 2) a).ActorLocation = ⟨0, 0, 0⟩ ∧
    s.ActorLocation +
      (⟨M.CosDeg s.YawDeg, M.SinDeg s.YawDeg, 0⟩ : FVector ℝ) * a * s.PanSpeed * (1 / 2 : ℝ) =
        ⟨5 / 1000000, 0, 0⟩ ∧
    (s.HandlePanForward M (1 / 2) a).ActorLocation ≠ s.ActorLocation +
      (⟨M.CosDeg s.YawDeg, M.SinDeg s.YawDeg, 0⟩ : FVector ℝ) * a * s.PanSpeed * (1 / 2 : ℝ) := by
  intro M s a
  have ha : FMath.IsNearlyZero a = true := by
    simp only [FMath.IsNearlyZero, FMath.Abs_eq_abs, UE_SMALL_NUMBER, a, decide_eq_true_eq]
    rw [abs_of_pos (by norm_num)]; norm_num
  have h1 : (s.HandlePanForward M (1 / 2) a).ActorLocation = ⟨0, 0, 0⟩ := by
    simp only [AIsoCameraPawn.HandlePanForward, ha, if_true]
    rfl
  have h2 : s.ActorLocation +
      (⟨M.CosDeg s.YawDeg, M.SinDeg s.YawDeg, 0⟩ : FVector ℝ) * a * s.PanSpeed * (1 / 2 : ℝ) =
        ⟨5 / 1000000, 0, 0⟩ := by
    simp only [FVector.add_def, FVector.mul_def, s, M, a, AIsoCameraPawn.defaults]
    ext <;> norm_num
  refine ⟨h1, h2, ?_⟩
  rw [h1, h2]
  intro h
  have := congrArg FVector.X h
  norm_num at this

/-- C15 (amended): for every state, frame times and axis values, the handlers
of two input actions give the same state in either order when the two are
Zoom with Pan-forward, Zoom with Pan-right, Zoom with Rotate, Pan-forward with
Pan-right, two Pan-forward, two Pan-right, or two Rotate. -/
theorem C15_handler_order_irrelevant (M : FPlatformMath K) (s : AIsoCameraPawn K)
    (dt dt' a b : K) :
    (s.HandleZoom a).HandlePanForward M dt b = (s.HandlePanForward M dt b).HandleZoom a ∧
    (s.HandleZoom a).HandlePanRight M dt b = (s.HandlePanRight M dt b).HandleZoom a ∧
    (s.HandleZoom a).HandleRotate dt b = (s.HandleRotate dt b).HandleZoom a ∧
    (s.HandlePanForward M dt a).HandlePanRight M dt' b =
      (s.HandlePanRight M dt' b).HandlePanForward M dt a ∧
    (s.HandlePanForward M dt a).HandlePanForward M dt' b =
      (s.HandlePanForward M dt' b).HandlePanForward M dt a ∧
    (s.HandlePanRight M dt a).HandlePanRight M dt' b =
      (s.HandlePanRight M dt' b).HandlePanRight M dt a ∧
    (s.HandleRotate dt a).HandleRotate dt' b = (s.HandleRotate dt' b).HandleRotate dt a := by
  refine ⟨?_, ?_, ?_, ?_, ?_, ?_, ?_⟩
  · rw [AIsoCameraPawn.HandlePanForward_eq, AIsoCameraPawn.HandlePanForward_eq]
    cases ha : FMath.IsNearlyZero a
    · cases hs : s.bScaleHeightWithZoom <;>
        simp [AIsoCameraPawn.HandleZoom, AIsoCameraPawn.ApplyHeightScalingFromRadius,
          AIsoCameraPawn.AddActorWorldOffset, ha, hs]
    · simp [AIsoCameraPawn.HandleZoom, ha]
  · rw [AIsoCameraPawn.HandlePanRight_eq, AIsoCameraPawn.HandlePanRight_eq]
    cases ha : FMath.IsNearlyZero a
    · cases hs : s.bScaleHeightWithZoom <;>
        simp [AIsoCameraPawn.HandleZoom, AIsoCameraPawn.ApplyHeightScalingFromRadius,
          AIsoCameraPawn.AddActorWorldOffset, ha, hs]
    · simp [AIsoCameraPawn.HandleZoom, ha]
  · rw [AIsoCameraPawn.HandleRotate_eq, AIsoCameraPawn.HandleRotate_eq]
    cases ha : FMath.IsNearlyZero a
    · cases hs : s.bScaleHeightWithZoom <;>
        simp [AIsoCameraPawn.HandleZoom, AIsoCameraPawn.ApplyHeightScalingFromRadius, ha, hs]
    · simp [AIsoCameraPawn.HandleZoom, ha]
  · rw [AIsoCameraPawn.HandlePanForward_eq, AIsoCameraPawn.HandlePanRight_eq,
      AIsoCameraPawn.HandlePanRight_eq, AIsoCameraPawn.HandlePanForward_eq]
    exact AIsoCameraPawn.AddActorWorldOffset_comm _ _ _
  · rw [AIsoCameraPawn.HandlePanForward_eq, AIsoCameraPawn.HandlePanForward_eq,
      AIsoCameraPawn.HandlePanForward_eq, AIsoCameraPawn.HandlePanForward_eq]
    exact AIsoCameraPawn.AddActorWorldOffset_comm _ _ _
  · rw [AIsoCameraPawn.HandlePanRight_eq, AIsoCameraPawn.HandlePanRight_eq,
      AIsoCameraPawn.HandlePanRight_eq, AIsoCameraPawn.HandlePanRight_eq]
    exact AIsoCameraPawn.AddActorWorldOffset_comm _ _ _
  · rw [AIsoCameraPawn.HandleRotate_eq, AIsoCameraPawn.HandleRotate_eq,
      AIsoCameraPawn.HandleRotate_eq, AIsoCameraPawn.HandleRotate_eq]
    simp only [add_right_comm]

/-- C15 (the claim as stated fails): over the reals, from yaw `0` at the
origin with frame time `1`, Rotate with axis `1` (yaw becomes 90) followed by
Pan-forward with axis `1` puts the pawn at `(0, 2000, 0)`, while Pan-forward
followed by Rotate puts it at `(2000, 0, 0)`: the pan handler reads the yaw
the rotate handler writes. -/
theorem C15_handler_order_counterexample :
    let M : FPlatformMath ℝ :=
      ⟨fun d => Real.sin (d * Real.pi / 180), fun d => Real.cos (d * Real.pi / 180),
        fun x => (Real.sqrt x)⁻¹⟩
    let s : AIsoCameraPawn ℝ := { AIsoCameraPawn.defaults ⟨0, 0, 0⟩ with YawDeg := 0 }
    (step M (step M s (Event.IA_Rotate 1 1)) (Event.IA_PanForward 1 1)).ActorLocation =
      ⟨0, 2000, 0⟩ ∧
    (step M (step M s (Event.IA_PanForward 1 1)) (Event.IA_Rotate 1 1)).ActorLocation =
      ⟨2000, 0, 0⟩ ∧
    (step M (step M s (Event.IA_Rotate 1 1)) (Event.IA_PanForward 1 1)).ActorLocation ≠
      (step M (step M s (Event.IA_PanForward 1 1)) (Event.IA_Rotate 1 1)).ActorLocation := by
  intro M s
  have hc : Real.cos (90 * Real.pi / 180) = 0 := by
    rw [show (90 : ℝ) * Real.pi / 180 = Real.pi / 2 by ring]; exact Real.cos_pi_div_two
  have hs : Real.sin (90 * Real.pi / 180) = 1 := by
    rw [show (90 : ℝ) * Real.pi / 180 = Real.pi / 2 by ring]; exact Real.sin_pi_div_two
  have hz : FMath.IsNearlyZero (1 : ℝ) = false := FMath.IsNearlyZero_one
  have h1 : (step M (step M s (Event.IA_Rotate 1 1)) (Event.IA_PanForward 1 1)).ActorLocation =
      ⟨0, 2000, 0⟩ := by
    simp only [step, AIsoCameraPawn.HandleRotate, AIsoCameraPawn.HandlePanForward, hz,
      Bool.false_eq_true, if_false, AIsoCameraPawn.AddActorWorldOffset,
      FRotator.Vector_yawOnly real_FPlatformMath_Lawful, FVector.add_def, FVector.mul_def,
      s, M, AIsoCameraPawn.defaults]
    have e : (0 : ℝ) + 1 * 90 * 1 = 90 := by norm_num
    simp only [e, hc, hs]
    ext <;> norm_num
  have h2 : (step M (step M s (Event.IA_PanForward 1 1)) (Event.IA_Rotate 1 1)).ActorLocation =
      ⟨2000, 0, 0⟩ := by
    simp only [step, AIsoCameraPawn.HandleRotate, AIsoCameraPawn.HandlePanForward, hz,
      Bool.false_eq_true, if_false, AIsoCameraPawn.AddActorWorldOffset,
      FRotator.Vector_yawOnly real_FPlatformMath_Lawful, FVector.add_def, FVector.mul_def,
      s, M, AIsoCameraPawn.defaults]
    ext <;> norm_num
  refine ⟨h1, h2, ?_⟩
  rw [h1, h2]
  intro h
  have := congrArg FVector.X h
  norm_num at this

/-- C16 (the code departs from the claim): `ZoomCamera`, `PanForward` and
`PanRight` give the same state as `HandleZoom`, `HandlePanForward` and
`HandlePanRight` on every input, but from `YawDeg = 350` with axis `1`,
`RotateSpeedDegPerSec = 90` and frame time `0.2` the legacy `RotateYaw` gives
`YawDeg = 8` and `HandleRotate` gives `YawDeg = 368`. -/
theorem C16_legacy_and_named_handlers (M : FPlatformMath ℚ) :
    (∀ (s : AIsoCameraPawn ℚ) (a : ℚ), s.ZoomCamera a = s.HandleZoom a) ∧
    (∀ (s : AIsoCameraPawn ℚ) (dt a : ℚ), s.PanForward M dt a = s.HandlePanForward M dt a) ∧
    (∀ (s : AIsoCameraPawn ℚ) (dt a : ℚ), s.PanRight M dt a = s.HandlePanRight M dt a) ∧
    (let s : AIsoCameraPawn ℚ := { AIsoCameraPawn.defaults ⟨0, 0, 0⟩ with YawDeg := 350 }
     (s.RotateYaw (1 / 5) 1).YawDeg = 8 ∧ (s.HandleRotate (1 / 5) 1).YawDeg = 368 ∧
     s.RotateYaw (1 / 5) 1 ≠ s.HandleRotate (1 / 5) 1) := by
  refine ⟨AIsoCameraPawn.ZoomCamera_eq_HandleZoom,
    AIsoCameraPawn.PanForward_eq_HandlePanForward M,
    AIsoCameraPawn.PanRight_eq_HandlePanRight M, ?_⟩
  intro s
  have hy : (350 : ℚ) + 1 * 90 * (1 / 5) = 368 := by norm_num
  have h1 : (s.RotateYaw (1 / 5) 1).YawDeg = 8 := by
    simp only [AIsoCameraPawn.RotateYaw, FMath.IsNearlyZero_one, s, AIsoCameraPawn.defaults,
      hy, FMath.Fmod_368_360]
    norm_num
  have h2 : (s.HandleRotate (1 / 5) 1).YawDeg = 368 := by
    simp only [AIsoCameraPawn.HandleRotate, FMath.IsNearlyZero_one, s,
      AIsoCameraPawn.defaults]
    norm_num
  refine ⟨h1, h2, fun h => ?_⟩
  have := congrArg AIsoCameraPawn.YawDeg h
  rw [h1, h2] at this
  norm_num at this

/-- C17 (amended): with `OrbitRadiusMin ≤ OrbitRadiusMax`,
`OrbitRadiusMax - OrbitRadiusMin ≤ KINDA_SMALL_NUMBER` and
`bScaleHeightWithZoom` on, in every state of a play session (after
`BeginPlay` and after every zoom) alpha is
`(OrbitRadius - OrbitRadiusMin) / KINDA_SMALL_NUMBER`, so
`Height = HeightMin + alpha * (HeightMax - HeightMin)`; when
`OrbitRadiusMin = OrbitRadiusMax` alpha is `0` and `Height = HeightMin`. -/
theorem C17_degenerate_radius_range [FloorRing K] (M : FPlatformMath K)
    (s0 : AIsoCameraPawn K) (hcfg : s0.OrbitRadiusMin ≤ s0.OrbitRadiusMax)
    (hdeg : s0.OrbitRadiusMax - s0.OrbitRadiusMin ≤ KINDA_SMALL_NUMBER)
    (hscale : s0.bScaleHeightWithZoom = true) (es : List (Event K)) :
    (play M s0 es).Height = s0.HeightMin +
      ((play M s0 es).OrbitRadius - s0.OrbitRadiusMin) / KINDA_SMALL_NUMBER *
        (s0.HeightMax - s0.HeightMin) ∧
    (s0.OrbitRadiusMin = s0.OrbitRadiusMax →
      (play M s0 es).OrbitRadius = s0.OrbitRadiusMin ∧
      (play M s0 es).Height = s0.HeightMin) := by
  have key := play_invariant M (fun s =>
    (s.OrbitRadiusMin = s0.OrbitRadiusMin ∧ s.OrbitRadiusMax = s0.OrbitRadiusMax ∧
      s.bScaleHeightWithZoom = true ∧ s.HeightMin = s0.HeightMin ∧
      s.HeightMax = s0.HeightMax) ∧
    (s0.OrbitRadiusMin ≤ s.OrbitRadius ∧ s.OrbitRadius ≤ s0.OrbitRadiusMax) ∧
    s.Height = s0.HeightMin +
      (s.OrbitRadius - s0.OrbitRadiusMin) / KINDA_SMALL_NUMBER *
        (s0.HeightMax - s0.HeightMin)) s0 ?_ ?_ es
  · obtain ⟨-, ⟨k1, k2⟩, k3⟩ := key
    refine ⟨k3, fun he => ?_⟩
    have hr : (play M s0 es).OrbitRadius = s0.OrbitRadiusMin :=
      le_antisymm (he ▸ k2) k1
    refine ⟨hr, ?_⟩
    rw [k3, hr, sub_self, zero_div, zero_mul, add_zero]
  · obtain ⟨h1, h2, h3, h4, h5, h6, h7⟩ := BeginPlay_zoom_fields M s0
    have b1 := FMath.le_Clamp s0.OrbitRadius s0.OrbitRadiusMin s0.OrbitRadiusMax
    have b2 := FMath.Clamp_le s0.OrbitRadius hcfg
    refine ⟨⟨h1, h2, h3.trans hscale, h4, h5⟩, ⟨h6 ▸ b1, h6 ▸ b2⟩, ?_⟩
    rw [h7, hscale, if_pos rfl, h6]
    exact degenerate_height _ _ _ _ _ b1 b2 hdeg
  · rintro s e ⟨⟨i1, i2, i3, i4, i5⟩, ⟨i6, i7⟩, i8⟩
    obtain ⟨h1, h2, h3, h4, h5, h6⟩ := step_zoom_fields M s e
    refine ⟨⟨h1.trans i1, h2.trans i2, h3.trans i3, h4.trans i4, h5.trans i5⟩, ?_⟩
    rcases h6 with ⟨h6, h7⟩ | ⟨x, h6, h7⟩
    · rw [h6, h7]; exact ⟨⟨i6, i7⟩, i8⟩
    · rw [i1, i2] at h6 h7
      rw [i3, if_pos rfl, i4, i5] at h7
      have b1 := FMath.le_Clamp x s0.OrbitRadiusMin s0.OrbitRadiusMax
      have b2 := FMath.Clamp_le x hcfg
      refine ⟨⟨h6 ▸ b1, h6 ▸ b2⟩, ?_⟩
      rw [h7, h6]
      exact degenerate_height _ _ _ _ _ b1 b2 hdeg

/-- C17, witness: the header defaults with the radius range collapsed to the
single value 800; after play start and a zoom-out the radius is 800 and the
height is `HeightMin = 600`. -/
theorem C17_degenerate_radius_range_witness :
    let M : FPlatformMath ℝ :=
      ⟨fun d => Real.sin (d * Real.pi / 180), fun d => Real.cos (d * Real.pi / 180),
        fun x => (Real.sqrt x)⁻¹⟩
    let s0 : AIsoCameraPawn ℝ :=
      { AIsoCameraPawn.defaults ⟨0, 0, 0⟩ with OrbitRadiusMax := 800 }
    s0.OrbitRadiusMin ≤ s0.OrbitRadiusMax ∧
    s0.OrbitRadiusMax - s0.OrbitRadiusMin ≤ KINDA_SMALL_NUMBER ∧
    s0.bScaleHeightWithZoom = true ∧
    (play M s0 [Event.IA_Zoom (-1)]).OrbitRadius = 800 ∧
    (play M s0 [Event.IA_Zoom (-1)]).Height = 600 := by
  intro M s0
  have h1 : s0.OrbitRadiusMin ≤ s0.OrbitRadiusMax := by
    norm_num [s0, AIsoCameraPawn.defaults]
  have h2 : s0.OrbitRadiusMax - s0.OrbitRadiusMin ≤ KINDA_SMALL_NUMBER := by
    norm_num [s0, AIsoCameraPawn.defaults, KINDA_SMALL_NUMBER]
  exact ⟨h1, h2, rfl,
    (C17_degenerate_radius_range M s0 h1 h2 rfl [Event.IA_Zoom (-1)]).2 rfl⟩

/-- C17 (the claim as stated fails): with the radius range
`[0, 0.0001]`, exactly as wide as `KINDA_SMALL_NUMBER`, the authored radius
`0.0001`, heights `[600, 2600]` and `bScaleHeightWithZoom` on, the state right
after play start has alpha `1` and `Height = 2600`, not `HeightMin = 600`. -/
theorem C17_degenerate_range_counterexample :
    let M : FPlatformMath ℝ :=
      ⟨fun d => Real.sin (d * Real.pi / 180), fun d => Real.cos (d * Real.pi / 180),
        fun x => (Real.sqrt x)⁻¹⟩
    let s0 : AIsoCameraPawn ℝ :=
      { AIsoCameraPawn.defaults ⟨0, 0, 0⟩ with
        OrbitRadiusMin := 0, OrbitRadiusMax := 1 / 10000, OrbitRadius := 1 / 10000 }
    s0.OrbitRadiusMin ≤ s0.OrbitRadiusMax ∧
    s0.OrbitRadiusMax - s0.OrbitRadiusMin ≤ KINDA_SMALL_NUMBER ∧
    s0.bScaleHeightWithZoom = true ∧
    (play M s0 []).OrbitRadius = 1 / 10000 ∧
    (play M s0 []).Height = 2600 ∧ (play M s0 []).Height ≠ s0.HeightMin := by
  intro M s0
  obtain ⟨-, -, -, -, -, h6, h7⟩ := BeginPlay_zoom_fields M s0
  have hr : (play M s0 []).OrbitRadius = 1 / 10000 := by
    rw [show (play M s0 []).OrbitRadius = _ from h6, FMath.Clamp_eq]
    norm_num [s0, AIsoCameraPawn.defaults]
  have hh : (play M s0 []).Height = 2600 := by
    rw [show (play M s0 []).Height = _ from h7]
    simp only [FMath.Clamp_eq, FMath.Max_eq_max, FMath.Lerp, KINDA_SMALL_NUMBER, s0,
      AIsoCameraPawn.defaults, if_true]
    norm_num
  refine ⟨by norm_num [s0, AIsoCameraPawn.defaults],
    by norm_num [s0, AIsoCameraPawn.defaults, KINDA_SMALL_NUMBER], rfl, hr, hh, ?_⟩
  rw [hh]
  norm_num [s0, AIsoCameraPawn.defaults]

/-- C18: the camera written by the transform update (location, rotation,
field of view) and the focus point do not depend on `Height`, `HeightMin`,
`HeightMax` or `bScaleHeightWithZoom`: two states that differ only in those
fields get the same camera. -/
theorem C18_camera_independent_of_height (M : FPlatformMath K) (s : AIsoCameraPawn K)
    (h hmin hmax : K) (b : Bool) :
    (AIsoCameraPawn.UpdateCameraTransform M
      { s with Height := h, HeightMin := hmin, HeightMax := hmax,
               bScaleHeightWithZoom := b }).Camera =
      (s.UpdateCameraTransform M).Camera ∧
    (AIsoCameraPawn.GetFocusPoint
      { s with Height := h, HeightMin := hmin, HeightMax := hmax,
               bScaleHeightWithZoom := b }) = s.GetFocusPoint := by
  refine ⟨?_, rfl⟩
  unfold AIsoCameraPawn.UpdateCameraTransform
  cases hc : s.Camera with
  | none => simp [hc]
  | some c => cases hd : s.bUseDebugCamera <;> simp [hc, hd, AIsoCameraPawn.GetFocusPoint]

/-- C19: with an inverted range `OrbitRadiusMax < OrbitRadiusMin`, whatever
the authored radius is, `BeginPlay` sets `OrbitRadius` to `OrbitRadiusMin`,
`HandleZoom` with an axis value outside the dead zone sets it to
`OrbitRadiusMin` from every state, and every state of a play session has
`OrbitRadius = OrbitRadiusMin`, a single value inside
`[OrbitRadiusMax, OrbitRadiusMin]`; with `bScaleHeightWithZoom` on and
`HeightMin ≤ HeightMax` the height stays in `[HeightMin, HeightMax]`. -/
theorem C19_inverted_radius_range [FloorRing K] (M : FPlatformMath K) (s0 : AIsoCameraPawn K)
    (hinv : s0.OrbitRadiusMax < s0.OrbitRadiusMin) :
    (s0.BeginPlay M).OrbitRadius = s0.OrbitRadiusMin ∧
    (∀ a : K, UE_SMALL_NUMBER < |a| → (s0.HandleZoom a).OrbitRadius = s0.OrbitRadiusMin) ∧
    (∀ es : List (Event K),
      (play M s0 es).OrbitRadius = s0.OrbitRadiusMin ∧
      s0.OrbitRadiusMax ≤ (play M s0 es).OrbitRadius ∧
      (play M s0 es).OrbitRadius ≤ s0.OrbitRadiusMin ∧
      (s0.bScaleHeightWithZoom = true → s0.HeightMin ≤ s0.HeightMax →
        s0.HeightMin ≤ (play M s0 es).Height ∧ (play M s0 es).Height ≤ s0.HeightMax)) := by
  have hb : (s0.BeginPlay M).OrbitRadius = s0.OrbitRadiusMin := by
    rw [(BeginPlay_zoom_fields M s0).2.2.2.2.2.1]
    exact FMath.Clamp_of_inverted _ hinv
  refine ⟨hb, fun a ha => ?_, fun es => ?_⟩
  · rw [AIsoCameraPawn.HandleZoom_OrbitRadius, (FMath.IsNearlyZero_eq_false_iff a).mpr ha]
    simp only [Bool.false_eq_true, if_false]
    exact FMath.Clamp_of_inverted _ hinv
  · have key := play_invariant M (fun s => s.OrbitRadiusMin = s0.OrbitRadiusMin ∧
      s.OrbitRadiusMax = s0.OrbitRadiusMax ∧ s.OrbitRadius = s0.OrbitRadiusMin) s0 ?_ ?_ es
    · obtain ⟨-, -, k⟩ := key
      exact ⟨k, k ▸ hinv.le, k.le, fun hs hh => play_height_mem M s0 hs hh es⟩
    · obtain ⟨h1, h2, -⟩ := BeginPlay_zoom_fields M s0
      exact ⟨h1, h2, hb⟩
    · rintro s e ⟨i1, i2, i3⟩
      obtain ⟨h1, h2, -, -, -, h6⟩ := step_zoom_fields M s e
      refine ⟨h1.trans i1, h2.trans i2, ?_⟩
      rcases h6 with ⟨h6, -⟩ | ⟨x, h6, -⟩
      · rw [h6]; exact i3
      · rw [h6, i1, i2]
        exact FMath.Clamp_of_inverted _ hinv

/-- C19, witness: the header defaults with the range inverted to
`OrbitRadiusMin = 8000`, `OrbitRadiusMax = 800` and the authored radius 3000;
after play start and two zooms the radius is 8000 and the height is in
`[600, 2600]`. -/
theorem C19_inverted_radius_range_witness :
    let M : FPlatformMath ℝ :=
      ⟨fun d => Real.sin (d * Real.pi / 180), fun d => Real.cos (d * Real.pi / 180),
        fun x => (Real.sqrt x)⁻¹⟩
    let s0 : AIsoCameraPawn ℝ :=
      { AIsoCameraPawn.defaults ⟨0, 0, 0⟩ with OrbitRadiusMin := 8000, OrbitRadiusMax := 800 }
    let es : List (Event ℝ) := [Event.IA_Zoom 1, Event.IA_Zoom (-2)]
    s0.OrbitRadiusMax < s0.OrbitRadiusMin ∧
    (play M s0 es).OrbitRadius = 8000 ∧
    600 ≤ (play M s0 es).Height ∧ (play M s0 es).Height ≤ 2600 := by
  intro M s0 es
  have h : s0.OrbitRadiusMax < s0.OrbitRadiusMin := by
    norm_num [s0, AIsoCameraPawn.defaults]
  obtain ⟨k1, -, -, k4⟩ := (C19_inverted_radius_range M s0 h).2.2 es
  have hh : s0.HeightMin ≤ s0.HeightMax := by norm_num [s0, AIsoCameraPawn.defaults]
  exact ⟨h, k1, (k4 rfl hh).1, (k4 rfl hh).2⟩

/-- C20: for every state, axis value and frame time: `HandleZoom` changes at
most `OrbitRadius` and `Height`; `HandleRotate` changes at most `YawDeg`;
`HandlePanForward` and `HandlePanRight` translate the pawn by some
`(dx, dy, 0)`, changing at most the X and Y of its location (the attached
camera is carried along by the same translation); hence no handler changes
`PitchDeg` or an authored configuration field; and with axis value exactly
`0` every handler leaves the whole state as it was. -/
theorem C20_handler_frames (M : FPlatformMath K) (hM : M.Lawful) (s : AIsoCameraPawn K)
    (dt a : K) :
    (s.HandleZoom a =
      { s with OrbitRadius := (s.HandleZoom a).OrbitRadius
               Height := (s.HandleZoom a).Height }) ∧
    (s.HandleRotate dt a = { s with YawDeg := (s.HandleRotate dt a).YawDeg }) ∧
    (∃ dx dy : K, s.HandlePanForward M dt a =
      { s with
        ActorLocation := ⟨s.ActorLocation.X + dx, s.ActorLocation.Y + dy, s.ActorLocation.Z⟩
        Camera := s.Camera.map fun c =>
          { c with WorldLocation := c.WorldLocation + ⟨dx, dy, 0⟩ } }) ∧
    (∃ dx dy : K, s.HandlePanRight M dt a =
      { s with
        ActorLocation := ⟨s.ActorLocation.X + dx, s.ActorLocation.Y + dy, s.ActorLocation.Z⟩
        Camera := s.Camera.map fun c =>
          { c with WorldLocation := c.WorldLocation + ⟨dx, dy, 0⟩ } }) ∧
    (s.HandleZoom 0 = s ∧ s.HandleRotate dt 0 = s ∧ s.HandlePanForward M dt 0 = s ∧
      s.HandlePanRight M dt 0 = s) := by
  refine ⟨AIsoCameraPawn.HandleZoom_frame s a, ?_, ?_, ?_, ?_⟩
  · rw [AIsoCameraPawn.HandleRotate_eq]
  · refine ⟨M.CosDeg s.YawDeg * (if FMath.IsNearlyZero a then 0 else a) * s.PanSpeed * dt,
      M.SinDeg s.YawDeg * (if FMath.IsNearlyZero a then 0 else a) * s.PanSpeed * dt, ?_⟩
    rw [AIsoCameraPawn.HandlePanForward_eq, FRotator.Vector_yawOnly hM]
    simp [AIsoCameraPawn.AddActorWorldOffset, FVector.add_def, FVector.mul_def]
  · refine ⟨-M.SinDeg s.YawDeg * (if FMath.IsNearlyZero a then 0 else a) * s.PanSpeed * dt,
      M.CosDeg s.YawDeg * (if FMath.IsNearlyZero a then 0 else a) * s.PanSpeed * dt, ?_⟩
    rw [AIsoCameraPawn.HandlePanRight_eq, FRotationMatrix.GetUnitAxisY_yawOnly hM]
    simp [AIsoCameraPawn.AddActorWorldOffset, FVector.add_def, FVector.mul_def]
  · simp only [AIsoCameraPawn.HandleZoom, AIsoCameraPawn.HandleRotate,
      AIsoCameraPawn.HandlePanForward, AIsoCameraPawn.HandlePanRight,
      FMath.IsNearlyZero_zero, if_true, and_self]

/-- C20, witness: over the reals, the header defaults with axis value `1` and
frame time `1 / 60`: after a pan-forward the pawn is still at height `0`, with
pitch `-35`, yaw `45` and radius `3000`. -/
theorem C20_handler_frames_witness :
    let M : FPlatformMath ℝ :=
      ⟨fun d => Real.sin (d * Real.pi / 180), fun d => Real.cos (d * Real.pi / 180),
        fun x => (Real.sqrt x)⁻¹⟩
    let s : AIsoCameraPawn ℝ := AIsoCameraPawn.defaults ⟨0, 0, 0⟩
    M.Lawful ∧
    (s.HandlePanForward M (1 / 60) 1).ActorLocation.Z = 0 ∧
    (s.HandlePanForward M (1 / 60) 1).PitchDeg = -35 ∧
    (s.HandlePanForward M (1 / 60) 1).YawDeg = 45 ∧
    (s.HandlePanForward M (1 / 60) 1).OrbitRadius = 3000 := by
  intro M s
  obtain ⟨dx, dy, h⟩ := (C20_handler_frames M real_FPlatformMath_Lawful s (1 / 60) 1).2.2.1
  rw [h]
  exact ⟨real_FPlatformMath_Lawful, rfl, rfl, rfl, rfl⟩

end Claims

end IsoCamera
